import Mathlib

/-!
# Lab5 remote-shell server (`src/Lab5/server.c`): shallow embedding

The server process is modelled by explicit state passing over a `World`:
the three global tables of the program, `errno`, a small model of the kernel
objects the program talks to (which descriptors are open, what is registered
in the two epoll instances) and the trace of system calls issued so far.

Results of system calls that depend on the outside world (`read`, `write`,
`accept`, `posix_openpt`, `timerfd_create`, ...) are inputs (`Env`).
`close` and `epoll_ctl` are answered by the kernel model.

A `client_t *` is always `&client_fd_tuples_mem[i]`, so a pointer is the
index `i`; `NULL` is `none`.  A function that dereferences `NULL` returns
`none`.

C integers: `int`/`ssize_t` values are `Int`, `size_t` values are `Nat`; the
one place where the conversion `ssize_t → size_t` changes a value (the mixed
comparison in `transfer_data`) is written with `toSizeT` (64-bit `size_t`).
-/

namespace Lab5

/-! ## Constants -/

abbrev Byte := Nat

/-- Constant `#define MAX_LENGTH 4096`. -/
def MAX_LENGTH : Nat := 4096

/-- Constant `#define SECRET "cs407rembash\n"` (the 13 bytes, without the terminating NUL). -/
def SECRET : List Byte := [99, 115, 52, 48, 55, 114, 101, 109, 98, 97, 115, 104, 10]

/-- Constant `#define CHALLENGE "<rembash>\n"`. -/
def CHALLENGE : List Byte := [60, 114, 101, 109, 98, 97, 115, 104, 62, 10]

/-- Constant `#define PROCEED "<ok>\n"`. -/
def PROCEED : List Byte := [60, 111, 107, 62, 10]

/-- Constant `#define ERROR "<error>\n"`. -/
def ERROR : List Byte := [60, 101, 114, 114, 111, 114, 62, 10]

/-- Linux `errno` values used by the model (`EAGAIN` and `EWOULDBLOCK` are the same number). -/
def ENOENT : Int := 2
def EBADF : Int := 9
def EAGAIN : Int := 11
def EWOULDBLOCK : Int := 11
def EEXIST : Int := 17
def EPIPE : Int := 32

/-- Linux `<sys/epoll.h>` event bits. -/
def EPOLLIN : Nat := 0x001
def EPOLLOUT : Nat := 0x004
def EPOLLERR : Nat := 0x008
def EPOLLHUP : Nat := 0x010
def EPOLLRDHUP : Nat := 0x2000
def EPOLLONESHOT : Nat := 0x40000000
def EPOLLET : Nat := 0x80000000

/-- Conversion of an `ssize_t` to the 64-bit unsigned `size_t` (what the usual
arithmetic conversions do to the signed operand of a mixed comparison). -/
def toSizeT (x : Int) : Nat := (x % (2 ^ 64 : Int)).toNat

/-! ## Data model -/

/-- Enumeration `typedef enum cstate { new, validated, established, unwritten, terminated } cstate_t;` -/
inductive cstate where
  | new
  | validated
  | established
  | unwritten
  | terminated
deriving DecidableEq, Repr

/-- Record `typedef struct client { ... } client_t;`  The array `char unwritten[MAX_LENGTH]`
is the list of its bytes. -/
structure client_t where
  socket_fd : Int
  pty_fd : Int
  state : cstate
  unwritten : List Byte
  nunwritten : Nat
  timer_fd : Int
deriving DecidableEq, Repr

/-- What a `read` returned: `data bs` is a return value of `bs.length` with the
bytes `bs` stored in the buffer (`data []` is a return value of 0);
`err e` is a return value of -1 with `errno = e`. -/
inductive ReadRes where
  | data (bs : List Byte)
  | err (e : Int)
deriving DecidableEq, Repr

/-- What a `write` returned: `count k` is a return value of `k` (the first `k`
bytes offered were accepted); `err e` is a return value of -1 with `errno = e`. -/
inductive WriteRes where
  | count (k : Nat)
  | err (e : Int)
deriving DecidableEq, Repr

/-- The `op` argument of `epoll_ctl`. -/
inductive EpollOp where
  | ADD
  | MOD
  | DEL
deriving DecidableEq, Repr

/-- System calls issued by the server, in program order. -/
inductive Event where
  | read (fd : Int) (count : Nat) (res : ReadRes)
  | write (fd : Int) (buf : List Byte) (res : WriteRes)
  | close (fd : Int) (ret : Int)
  | epoll_ctl (epfd : Int) (op : EpollOp) (fd : Int) (events : Nat) (ret : Int)
  | accept (fd : Int) (ret : Int)
  | posix_openpt (ret : Int)
  | fork
  | timerfd_create (ret : Int)
  | timerfd_settime (fd : Int) (secs : Nat)
deriving DecidableEq, Repr

/-- The globals of the program (`client_fd_tuples`, `client_fd_tuples_mem`,
`timer_fd_tuples`, `epoll_fd`, `t_epoll_fd`, `listen_fd`), `errno`, and the kernel
objects: the set of open descriptors and the interest lists (descriptor ↦ event
mask) of the main epoll instance and of the timer epoll instance. -/
structure World where
  client_fd_tuples : Int → Option Int
  client_fd_tuples_mem : Int → client_t
  timer_fd_tuples : Int → Int
  epoll_fd : Int
  t_epoll_fd : Int
  listen_fd : Int
  errno : Int
  open_fds : Int → Bool
  epoll_set : Int → Option Nat
  t_epoll_set : Int → Option Nat
  trace : List Event

/-- Outcomes of the outside world for one call of `handle_io`: at most one `read`
and one `write` are issued per call.  `nwrite0` is the value found in the
uninitialised local `nwrite` of `transfer_data` when no `write` assigns it. -/
structure Env where
  rd : ReadRes
  wr : WriteRes
  nwrite0 : Int
  accept_ret : Int
  accept_errno : Int
  openpt_ret : Int
  openpt_errno : Int
  pt_setup_ok : Bool
  pt_setup_errno : Int
  timerfd_ret : Int
  timerfd_errno : Int

/-- Array store `a[i] = v`. -/
def upd {β : Type} (f : Int → β) (i : Int) (v : β) : Int → β :=
  fun j => if j = i then v else f j

/-! ## System calls -/

def log (w : World) (e : Event) : World :=
  { w with trace := w.trace ++ [e] }

/-- System call `read(fd, buf, count)`: returns `(nread, buf, world)`. -/
def sys_read (w : World) (fd : Int) (count : Nat) (rd : ReadRes) : Int × List Byte × World :=
  match rd with
  | ReadRes.data bs => ((bs.length : Int), bs, log w (Event.read fd count rd))
  | ReadRes.err e => (-1, [], log { w with errno := e } (Event.read fd count rd))

/-- System call `write(fd, buf, len)` where `buf` lists the `len` bytes offered. -/
def sys_write (w : World) (fd : Int) (buf : List Byte) (wr : WriteRes) : Int × World :=
  match wr with
  | WriteRes.count k => ((k : Int), log w (Event.write fd buf wr))
  | WriteRes.err e => (-1, log { w with errno := e } (Event.write fd buf wr))

/-- System call `close(fd)`: succeeds exactly on an open descriptor, which it also removes from
the epoll interest lists; `EBADF` otherwise. -/
def sys_close (w : World) (fd : Int) : Int × World :=
  if w.open_fds fd = true then
    (0, log { w with open_fds := upd w.open_fds fd false,
                     epoll_set := upd w.epoll_set fd none,
                     t_epoll_set := upd w.t_epoll_set fd none } (Event.close fd 0))
  else
    (-1, log { w with errno := EBADF } (Event.close fd (-1)))

/-- Kernel answer to `epoll_ctl` on one interest list: `ADD` fails with `EEXIST` on a
registered descriptor, `MOD` and `DEL` fail with `ENOENT` on an unregistered one. -/
def epoll_apply (s : Int → Option Nat) (op : EpollOp) (fd : Int) (events : Nat) :
    Except Int (Int → Option Nat) :=
  match op, s fd with
  | EpollOp.ADD, none => Except.ok (upd s fd (some events))
  | EpollOp.ADD, some _ => Except.error EEXIST
  | EpollOp.MOD, some _ => Except.ok (upd s fd (some events))
  | EpollOp.MOD, none => Except.error ENOENT
  | EpollOp.DEL, some _ => Except.ok (upd s fd none)
  | EpollOp.DEL, none => Except.error ENOENT

/-- System call `epoll_ctl(epfd, op, fd, &ev)` with `ev.events = events`, `ev.data.fd = fd`;
`EBADF` when `fd` is not an open descriptor or `epfd` is neither epoll instance. -/
def sys_epoll_ctl (w : World) (epfd : Int) (op : EpollOp) (fd : Int) (events : Nat) : Int × World :=
  if w.open_fds fd ≠ true then
    (-1, log { w with errno := EBADF } (Event.epoll_ctl epfd op fd events (-1)))
  else if epfd = w.epoll_fd then
    match epoll_apply w.epoll_set op fd events with
    | Except.ok s => (0, log { w with epoll_set := s } (Event.epoll_ctl epfd op fd events 0))
    | Except.error e => (-1, log { w with errno := e } (Event.epoll_ctl epfd op fd events (-1)))
  else if epfd = w.t_epoll_fd then
    match epoll_apply w.t_epoll_set op fd events with
    | Except.ok s => (0, log { w with t_epoll_set := s } (Event.epoll_ctl epfd op fd events 0))
    | Except.error e => (-1, log { w with errno := e } (Event.epoll_ctl epfd op fd events (-1)))
  else
    (-1, log { w with errno := EBADF } (Event.epoll_ctl epfd op fd events (-1)))

/-! ## libc -/

/-- Function `strcmp(a, b)` on the bytes found from the two pointers on; both stop at their
first NUL.  The end of a list is read as NUL. -/
def strcmp : List Byte → List Byte → Int
  | a :: as, b :: bs => if a ≠ b then (a : Int) - (b : Int) else if a = 0 then 0 else strcmp as bs
  | a :: _, [] => (a : Int)
  | [], b :: _ => - (b : Int)
  | [], [] => 0

/-- Functions `memcpy(dst, src, n)` / `memmove(dst, src, n)`: the first `n` bytes of `dst`
become the first `n` bytes of `src` (taken before the store, so overlap is fine).
This is what the C functions do for a copy that stays inside both arrays, `n ≤ MAX_LENGTH`
with at least `n` bytes at `src`.  A longer copy, which in C runs past the end of
`unwritten` into the fields and records that follow, is not modelled: here it leaves
everything outside the list as it was. -/
def memcpy (dst src : List Byte) (n : Nat) : List Byte :=
  src.take n ++ dst.drop n

/-- Pointer `buf + off`, for `0 ≤ off ≤ buf.length`.  A negative offset, which in C
points below the array, is not modelled: here it gives the array itself. -/
def ptr_add (buf : List Byte) (off : Int) : List Byte :=
  buf.drop off.toNat

/-! ## The program -/

/-- Store through a `client_t *`. -/
def set_client (w : World) (p : Int) (c : client_t) : World :=
  { w with client_fd_tuples_mem := upd w.client_fd_tuples_mem p c }

/-- Function `cstate_t get_cstate(int fd)`: `client_fd_tuples[fd] -> state`. -/
def get_cstate (w : World) (fd : Int) : Option cstate :=
  match w.client_fd_tuples fd with
  | none => none
  | some p => some (w.client_fd_tuples_mem p).state

/-- The statement `if(close(fd) != -1) { client_fd_tuples[fd] = NULL; }`. -/
def close_and_clear (w : World) (fd : Int) : World :=
  if (sys_close w fd).1 ≠ -1 then
    { (sys_close w fd).2 with client_fd_tuples := upd (sys_close w fd).2.client_fd_tuples fd none }
  else (sys_close w fd).2

/-- Function `void graceful_exit(int fd)`.  In the second branch the test
`client -> state == terminated` is kept as written (it follows the assignment). -/
def graceful_exit (w : World) (fd : Int) : World :=
  match w.client_fd_tuples fd with
  | none => w
  | some p =>
    let client_fd := (w.client_fd_tuples_mem p).socket_fd
    if (w.client_fd_tuples_mem p).state = cstate.new then
      let w1 := (sys_epoll_ctl w w.epoll_fd EpollOp.DEL client_fd 0).2
      let w2 := (sys_epoll_ctl w1 w1.t_epoll_fd EpollOp.DEL (w1.client_fd_tuples_mem p).timer_fd 0).2
      close_and_clear w2 client_fd
    else
      let w1 := set_client w p { w.client_fd_tuples_mem p with state := cstate.terminated }
      let w2 := (sys_epoll_ctl w1 w1.epoll_fd EpollOp.DEL client_fd 0).2
      let w3 := close_and_clear w2 client_fd
      let pty_fd := (w3.client_fd_tuples_mem p).pty_fd
      if (w3.client_fd_tuples_mem p).state = cstate.terminated then
        close_and_clear (sys_epoll_ctl w3 w3.epoll_fd EpollOp.DEL pty_fd 0).2 pty_fd
      else w3

/-- Function `int register_client(int sock)`: the record is `client_fd_tuples_mem[sock]`;
its `unwritten` array and `timer_fd` keep what they held. -/
def register_client (w : World) (sock : Int) : Int × World :=
  let w1 := set_client w sock { w.client_fd_tuples_mem sock with
    socket_fd := sock, state := cstate.new, pty_fd := -1, nunwritten := 0 }
  let w2 := { w1 with client_fd_tuples := upd w1.client_fd_tuples sock (some sock) }
  let r := sys_epoll_ctl w2 w2.epoll_fd EpollOp.ADD sock (EPOLLIN ||| EPOLLET ||| EPOLLONESHOT)
  if r.1 = -1 then (-1, r.2) else (0, r.2)

/-- System call `timerfd_create(CLOCK_REALTIME, TFD_NONBLOCK | TFD_CLOEXEC)`. -/
def sys_timerfd_create (w : World) (env : Env) : Int × World :=
  if env.timerfd_ret = -1 then
    (-1, log { w with errno := env.timerfd_errno } (Event.timerfd_create (-1)))
  else
    (env.timerfd_ret, log { w with open_fds := upd w.open_fds env.timerfd_ret true }
      (Event.timerfd_create env.timerfd_ret))

/-- System call `timerfd_settime(fd, 0, &timer, NULL)` with `timer.it_value.tv_sec = secs`. -/
def sys_timerfd_settime (w : World) (fd : Int) (secs : Nat) : Int × World :=
  if w.open_fds fd = true then (0, log w (Event.timerfd_settime fd secs))
  else (-1, log { w with errno := EBADF } (Event.timerfd_settime fd secs))

/-- Function `int initiate_handshake(int client_fd)`. -/
def initiate_handshake (w : World) (client_fd : Int) (env : Env) : Option (Int × World) :=
  let r := sys_write w client_fd CHALLENGE env.wr
  if r.1 = -1 then some (-1, r.2)
  else
    let t := sys_timerfd_create r.2 env
    let timer_fd := t.1
    let w1 := (sys_timerfd_settime t.2 timer_fd 3).2
    match w1.client_fd_tuples client_fd with
    | none => none
    | some p =>
      let w2 := set_client w1 p { w1.client_fd_tuples_mem p with timer_fd := timer_fd }
      let w3 := { w2 with timer_fd_tuples := upd w2.timer_fd_tuples timer_fd client_fd }
      let r2 := sys_epoll_ctl w3 w3.t_epoll_fd EpollOp.ADD timer_fd
        (EPOLLONESHOT ||| EPOLLIN ||| EPOLLET)
      if r2.1 = -1 then some (-1, r2.2) else some (0, r2.2)

/-- System call `accept(listen_fd, NULL, NULL)`. -/
def sys_accept (w : World) (env : Env) : Int × World :=
  if env.accept_ret = -1 then
    (-1, log { w with errno := env.accept_errno } (Event.accept w.listen_fd (-1)))
  else
    (env.accept_ret, log { w with open_fds := upd w.open_fds env.accept_ret true }
      (Event.accept w.listen_fd env.accept_ret))

/-- Function `void client_connect()`. -/
def client_connect (w : World) (env : Env) : Option World :=
  let a := sys_accept w env
  let client_fd := a.1
  if client_fd = -1 ∧ a.2.errno ≠ EAGAIN then some a.2
  else if client_fd = -1 then some a.2
  else
    let r := register_client a.2 client_fd
    let w1 := if r.1 ≠ 0 then (sys_close r.2 client_fd).2 else r.2
    match initiate_handshake w1 client_fd env with
    | none => none
    | some (rv, w2) => if rv ≠ 0 then some (sys_close w2 client_fd).2 else some w2

/-- Function `char *read_client_message(int client_fd)`: one `read` of at most
`MAX_LENGTH - 1` bytes into `msg`, then `msg[nread] = 0`.  The result lists `msg` up to
and including that NUL (`NULL` is `none`). -/
def read_client_message (w : World) (client_fd : Int) (rd : ReadRes) : Option (List Byte) × World :=
  let r := sys_read w client_fd (MAX_LENGTH - 1) rd
  if r.1 ≤ 0 then (none, r.2.2)
  else (some (r.2.1 ++ [0]), r.2.2)

/-- Function `int validate_client(int client_fd)`. -/
def validate_client (w : World) (client_fd : Int) (rd : ReadRes) (wr : WriteRes) :
    Option (Int × World) :=
  let m := read_client_message w client_fd rd
  match m.1 with
  | none => some (-1, m.2)
  | some pass =>
    match m.2.client_fd_tuples client_fd with
    | none => none
    | some p =>
      let w1 := set_client m.2 p { m.2.client_fd_tuples_mem p with state := cstate.validated }
      if strcmp pass (SECRET ++ [0]) ≠ 0 then
        some (-1, (sys_write w1 client_fd ERROR wr).2)
      else some (0, w1)

/-- System call `posix_openpt(O_RDWR | O_NOCTTY | O_CLOEXEC)`. -/
def sys_posix_openpt (w : World) (env : Env) : Int × World :=
  if env.openpt_ret = -1 then
    (-1, log { w with errno := env.openpt_errno } (Event.posix_openpt (-1)))
  else
    (env.openpt_ret, log { w with open_fds := upd w.open_fds env.openpt_ret true }
      (Event.posix_openpt env.openpt_ret))

/-- Function `int open_pty(int client_fd)`, in the server process (`fork` returns
non-zero there; the child replaces itself by bash or exits).  `env.pt_setup_ok` says
whether `grantpt`, `unlockpt` and `ptsname` all succeeded.  The descriptor flags set
by `fcntl` are not part of the model. -/
def open_pty (w : World) (client_fd : Int) (env : Env) : Option (Int × World) :=
  let o := sys_posix_openpt w env
  let pty_master := o.1
  if pty_master = -1 then some (-1, o.2)
  else if env.pt_setup_ok ≠ true then
    some (-1, { (sys_close o.2 pty_master).2 with errno := env.pt_setup_errno })
  else
    let r := sys_epoll_ctl o.2 o.2.epoll_fd EpollOp.ADD pty_master
      (EPOLLIN ||| EPOLLET ||| EPOLLONESHOT)
    if r.1 = -1 then some (-1, r.2)
    else
      let w1 := log r.2 Event.fork
      let w2 := (sys_write w1 client_fd PROCEED env.wr).2
      match w.client_fd_tuples client_fd with
      | none => none
      | some p =>
        let w3 := set_client w2 p { w2.client_fd_tuples_mem p with state := cstate.established }
        let w4 := set_client w3 p { w3.client_fd_tuples_mem p with pty_fd := pty_master }
        some (0, { w4 with client_fd_tuples := upd w4.client_fd_tuples pty_master (some p) })

/-- Function `void transfer_data(int from)`.  `nwrite0` is the content of the local
`nwrite`, which the code assigns only when `read` returned data.  In the drain branch
`nunwritten -= nwrite` is a natural subtraction (the guard `nunwritten > nwrite`, taken
in `size_t`, excludes wrap-around); in the pump branch `nread - nwrite` is positive where
it is stored into `nunwritten`, so its conversion to `size_t` is `Int.toNat`. -/
def transfer_data (w : World) (frm : Int) (rd : ReadRes) (wr : WriteRes) (nwrite0 : Int) :
    Option World :=
  match w.client_fd_tuples frm with
  | none => none
  | some p =>
    let client := w.client_fd_tuples_mem p
    let to_fd := if frm = client.pty_fd then client.socket_fd else client.pty_fd
    if client.state = cstate.terminated then some w
    else
      match get_cstate w client.socket_fd with
      | none => none
      | some st =>
        if st = cstate.unwritten then
          let r := sys_write w to_fd (client.unwritten.take client.nunwritten) wr
          let nwrite := r.1
          let c := r.2.client_fd_tuples_mem p
          if c.nunwritten > toSizeT nwrite then
            let n := c.nunwritten - toSizeT nwrite
            some (set_client r.2 p { c with
              nunwritten := n,
              unwritten := memcpy c.unwritten (ptr_add c.unwritten nwrite) n })
          else
            some (set_client r.2 p { c with nunwritten := 0, state := cstate.established })
        else
          let r := sys_read w frm MAX_LENGTH rd
          let nread := r.1
          let buf := r.2.1
          let wt := if nread > 0 then sys_write r.2.2 to_fd buf wr else (nwrite0, r.2.2)
          let nwrite := wt.1
          let w1 := wt.2
          let w2 := if nread = -1 ∧ w1.errno ≠ EWOULDBLOCK ∧ w1.errno ≠ EAGAIN
            then graceful_exit w1 frm else w1
          let w3 := if nread = 0 then graceful_exit w2 frm else w2
          let w4 := if nwrite = -1 ∧ w3.errno ≠ EWOULDBLOCK ∧ w3.errno ≠ EAGAIN
            then graceful_exit w3 frm else w3
          let nwrite := if nwrite = -1 then 0 else nwrite
          if nwrite < nread then
            let n := (nread - nwrite).toNat
            some (set_client w4 p { w4.client_fd_tuples_mem p with
              nunwritten := n,
              unwritten := memcpy (w4.client_fd_tuples_mem p).unwritten (ptr_add buf nwrite) n,
              state := cstate.unwritten })
          else some w4

/-- Function `void handle_io(int fd)`. -/
def handle_io (w : World) (fd : Int) (env : Env) : Option World :=
  let dispatched : Option World :=
    if fd = w.listen_fd then client_connect w env
    else
      match get_cstate w fd with
      | none => none
      | some st =>
        if st = cstate.new then
          match validate_client w fd env.rd env.wr with
          | none => none
          | some (rv, w1) =>
            if rv ≠ 0 then some (graceful_exit w1 fd)
            else
              match open_pty w1 fd env with
              | none => none
              | some (ro, w2) => if ro ≠ 0 then some (graceful_exit w2 fd) else some w2
        else if st = cstate.terminated then some w
        else transfer_data w fd env.rd env.wr env.nwrite0
  match dispatched with
  | none => none
  | some w1 =>
    if fd ≠ w1.listen_fd then
      match w1.client_fd_tuples fd with
      | none => some w1
      | some p =>
        if (w1.client_fd_tuples_mem p).state = cstate.unwritten then
          some (sys_epoll_ctl w1 w1.epoll_fd EpollOp.MOD fd (EPOLLOUT ||| EPOLLET ||| EPOLLONESHOT)).2
        else
          some (sys_epoll_ctl w1 w1.epoll_fd EpollOp.MOD fd (EPOLLIN ||| EPOLLET ||| EPOLLONESHOT)).2
    else
      some (sys_epoll_ctl w1 w1.epoll_fd EpollOp.MOD fd (EPOLLIN ||| EPOLLET ||| EPOLLONESHOT)).2

/-- A run of `transfer_data` calls, one per readiness event: each step gives the
descriptor the event is for and the outcomes of that call. -/
def transfer_steps (w : World) : List (Int × ReadRes × WriteRes × Int) → Option World
  | [] => some w
  | (frm, rd, wr, g) :: rest =>
    match transfer_data w frm rd wr g with
    | none => none
    | some w1 => transfer_steps w1 rest

/-- Bytes accepted by `write` on descriptor `fd`, in order. -/
def bytes_accepted (fd : Int) : List Event → List Byte
  | [] => []
  | Event.write f buf (WriteRes.count k) :: es =>
    if f = fd then buf.take k ++ bytes_accepted fd es else bytes_accepted fd es
  | _ :: es => bytes_accepted fd es

/-- Bytes returned by `read` on descriptor `fd`, in order. -/
def bytes_returned (fd : Int) : List Event → List Byte
  | [] => []
  | Event.read f _ (ReadRes.data bs) :: es =>
    if f = fd then bs ++ bytes_returned fd es else bytes_returned fd es
  | _ :: es => bytes_returned fd es

/-! ## Sample runs -/

/-- Static storage is zero-initialised: state `new` (enumerator 0), all fields 0. -/
def zero_client : client_t :=
  { socket_fd := 0, pty_fd := 0, state := cstate.new,
    unwritten := List.replicate MAX_LENGTH 0, nunwritten := 0, timer_fd := 0 }

/-- The process when `main` enters `epoll_listener`: descriptors 0-2 are the standard
streams, 3 is `epoll_fd`, 4 is `t_epoll_fd`, 5 is `listen_fd`; `t_epoll_fd` and
`listen_fd` are registered in the main epoll instance. -/
def boot : World :=
  { client_fd_tuples := fun _ => none
    client_fd_tuples_mem := fun _ => zero_client
    timer_fd_tuples := fun _ => 0
    epoll_fd := 3
    t_epoll_fd := 4
    listen_fd := 5
    errno := 0
    open_fds := fun fd => decide (0 ≤ fd ∧ fd ≤ 5)
    epoll_set := fun fd =>
      if fd = 4 ∨ fd = 5 then some (EPOLLONESHOT ||| EPOLLIN ||| EPOLLET) else none
    t_epoll_set := fun _ => none
    trace := [] }

/-- Outcomes with nothing to read and every allocation failing; samples override fields. -/
def quiet : Env :=
  { rd := ReadRes.err EAGAIN, wr := WriteRes.err EAGAIN, nwrite0 := 0,
    accept_ret := -1, accept_errno := EAGAIN, openpt_ret := -1, openpt_errno := 0,
    pt_setup_ok := false, pt_setup_errno := 0, timerfd_ret := -1, timerfd_errno := 0 }

/-- Outcomes for the event on the listening descriptor: a client is accepted on
descriptor 6, the challenge is written in full and the handshake timer is descriptor 7. -/
def accept_env : Env :=
  { quiet with accept_ret := 6, wr := WriteRes.count 10, timerfd_ret := 7 }

/-- The world after client 6 was accepted. -/
def accepted : Option World :=
  handle_io boot 5 accept_env

/-- Outcomes for the event on which the client of `accepted` has sent `m`: the PTY
master will be descriptor 8 and `wr` is the outcome of the one `write` that follows. -/
def answer_env (m : List Byte) (wr : WriteRes) : Env :=
  { quiet with rd := ReadRes.data m, wr := wr, openpt_ret := 8, pt_setup_ok := true }

/-- The client of `accepted` sends `m`. -/
def answered (m : List Byte) (wr : WriteRes) : Option World :=
  accepted.bind fun w => handle_io w 6 (answer_env m wr)

/-- What `handle_io` did for the answer `m`: the system calls it issued, the table slot
of descriptor 6 and whether descriptor 6 is still open afterwards. -/
def answer_report (m : List Byte) (wr : WriteRes) : Option (List Event × Option Int × Bool) :=
  accepted.bind fun w0 =>
    (handle_io w0 6 (answer_env m wr)).map fun w =>
      (w.trace.drop w0.trace.length, w.client_fd_tuples 6, w.open_fds 6)

/-- The session of client 6 (socket 6, PTY master 8) after a handshake with the secret. -/
def session : Option World := answered SECRET (WriteRes.count 5)

/-- What a run of `transfer_data` calls on the session of client 6 leaves: state and
`nunwritten` of the record, the bytes `read` returned on `src` and the bytes `write`
accepted on `dst` during the run. -/
def relay_report (src dst : Int) (steps : List (Int × ReadRes × WriteRes × Int)) :
    Option (cstate × Nat × List Byte × List Byte) :=
  session.bind fun w0 =>
    (transfer_steps w0 steps).map fun w =>
      ((w.client_fd_tuples_mem 6).state, (w.client_fd_tuples_mem 6).nunwritten,
        bytes_returned src (w.trace.drop w0.trace.length),
        bytes_accepted dst (w.trace.drop w0.trace.length))

/-- The world of `accepted` (client 6 in state `new`). -/
def w_accepted : World := accepted.getD boot

/-- The world of `session` (client 6 established, PTY master 8). -/
def w_session : World := session.getD boot

/-- The session of client 6 after the socket delivered `ABCDEF` and the PTY accepted
only two bytes of it: state `unwritten`, carry-over `CDEF`. -/
def w_carry : World :=
  (transfer_data w_session 6 (ReadRes.data [65, 66, 67, 68, 69, 70]) (WriteRes.count 2) 0).getD boot

/-- System calls that tear a registration or a descriptor down. -/
def Event.is_teardown : Event → Bool
  | Event.close _ _ => true
  | Event.epoll_ctl _ _ _ _ _ => true
  | _ => false

/-- The C string at the start of a message: its bytes before the first NUL. -/
def c_string (m : List Byte) : List Byte :=
  m.takeWhile (fun b => decide (b ≠ 0))

/-- State/buffer agreement as the code keeps it: an `unwritten` record has bytes
pending, and only an `unwritten` or a `terminated` record has. -/
def buffer_agrees (c : client_t) : Prop :=
  (c.state = cstate.unwritten → 0 < c.nunwritten) ∧
  (0 < c.nunwritten → c.state = cstate.unwritten ∨ c.state = cstate.terminated)

instance (c : client_t) : Decidable (buffer_agrees c) := by
  unfold buffer_agrees
  exact inferInstance

/-- Every record of the table memory satisfies `buffer_agrees`. -/
def all_agree (w : World) : Prop := ∀ q, buffer_agrees (w.client_fd_tuples_mem q)

/-- Every record of the table memory has `nunwritten ≤ MAX_LENGTH`. -/
def all_bounded (w : World) : Prop := ∀ q, (w.client_fd_tuples_mem q).nunwritten ≤ MAX_LENGTH

/-! ## The event loop -/

/-- Constant `#define MAX_EVENTS 24`. -/
def MAX_EVENTS : Nat := 24

/-- Flag bits of an interest mask (the kernel's `EP_PRIVATE_BITS`, of which the program
uses these two); every other bit is an event. -/
def EP_PRIVATE_BITS : Nat := EPOLLONESHOT ||| EPOLLET

/-- An interest mask is armed while it holds an event bit.  Reporting a one-shot
descriptor clears its event bits, and only `epoll_ctl` with `EPOLL_CTL_MOD` sets them
again. -/
def armed (m : Nat) : Bool := decide (m &&& EP_PRIVATE_BITS ≠ m)

/-- Kernel side of `epoll_wait` on one interest list.  `ready` lists, in order, what is
ready in the outside world (descriptor, event bits); at most `room` events are reported.
A descriptor is reported when it is registered, armed and ready for something it is
registered for (`EPOLLERR` and `EPOLLHUP` are always of interest); reporting a one-shot
descriptor disarms it. -/
def epoll_report (s : Int → Option Nat) :
    Nat → List (Int × Nat) → List (Int × Nat) × (Int → Option Nat)
  | _, [] => ([], s)
  | 0, _ :: _ => ([], s)
  | room + 1, (fd, ready) :: rest =>
    match s fd with
    | none => epoll_report s (room + 1) rest
    | some m =>
      if armed m = true ∧ ready &&& (m ||| EPOLLERR ||| EPOLLHUP) &&& EP_PRIVATE_BITS
          ≠ ready &&& (m ||| EPOLLERR ||| EPOLLHUP) then
        let s1 := if m &&& EPOLLONESHOT ≠ 0 then upd s fd (some (m &&& EP_PRIVATE_BITS)) else s
        ((fd, ready &&& (m ||| EPOLLERR ||| EPOLLHUP)) :: (epoll_report s1 room rest).1,
          (epoll_report s1 room rest).2)
      else epoll_report s (room + 1) rest

/-- System call `epoll_pwait(epfd, ev_list, MAX_EVENTS, -1, 0)`, returning the events
stored in `ev_list`.  The call is not entered in the trace. -/
def sys_epoll_pwait (w : World) (epfd : Int) (ready : List (Int × Nat)) :
    List (Int × Nat) × World :=
  if epfd = w.epoll_fd then
    ((epoll_report w.epoll_set MAX_EVENTS ready).1,
      { w with epoll_set := (epoll_report w.epoll_set MAX_EVENTS ready).2 })
  else if epfd = w.t_epoll_fd then
    ((epoll_report w.t_epoll_set MAX_EVENTS ready).1,
      { w with t_epoll_set := (epoll_report w.t_epoll_set MAX_EVENTS ready).2 })
  else ([], { w with errno := EBADF })

/-- Modelled from the spec: the worker pool of `tpool.h`, which is not among the sources.
`tpool_add_task(fd)` appends `fd` to the FIFO queue of ready descriptors. -/
def tpool_add_task (queue : List Int) (fd : Int) : List Int :=
  queue ++ [fd]

/-- Modelled from the spec: a worker of the pool (`tpool.h`, not among the sources) pops
the oldest queued descriptor and calls `handle_io` on it. -/
def worker_step (s : World × List Int) (env : Env) : Option (World × List Int) :=
  match s.2 with
  | [] => some s
  | fd :: rest => (handle_io s.1 fd env).map fun w => (w, rest)

/-- Body of the loop `for(j = 0; j < t_events; j++)` of `epoll_listener` for the expired
timer `timer_fd`. -/
def timer_event (w : World) (timer_fd : Int) : World :=
  let client_fd := w.timer_fd_tuples timer_fd
  match w.client_fd_tuples client_fd with
  | none => w
  | some p =>
    if (w.client_fd_tuples_mem p).state = cstate.new then
      let w1 := (sys_epoll_ctl w w.t_epoll_fd EpollOp.DEL timer_fd 0).2
      let w2 := (sys_close w1 timer_fd).2
      graceful_exit w2 client_fd
    else w

/-- Body of the loop `for(i = 0; i < events; i++)` of `epoll_listener` for the reported
event `ev` (descriptor, event bits), on the world and the queue of the worker pool.
The test `(fd == t_epoll_fd) & EPOLLIN` is kept as written.  `t_ready` lists the timers
that are ready when the timer set is waited on. -/
def listener_event (s : World × List Int) (ev : Int × Nat) (t_ready : List (Int × Nat)) :
    World × List Int :=
  if ev.2 &&& (EPOLLIN ||| EPOLLOUT) ≠ 0 then
    if (if ev.1 = s.1.t_epoll_fd then 1 else 0) &&& EPOLLIN ≠ 0 then
      ((sys_epoll_pwait s.1 s.1.t_epoll_fd t_ready).1.foldl (fun w e => timer_event w e.1)
        (sys_epoll_pwait s.1 s.1.t_epoll_fd t_ready).2, s.2)
    else (s.1, tpool_add_task s.2 ev.1)
  else if ev.2 &&& (EPOLLHUP ||| EPOLLRDHUP ||| EPOLLERR) ≠ 0 then
    (graceful_exit s.1 ev.1, s.2)
  else s

/-- One pass of the loop `while(1)` of `epoll_listener`: the wait on the main set, then
the loop over the reported events. -/
def epoll_listener_pass (s : World × List Int) (ready t_ready : List (Int × Nat)) :
    World × List Int :=
  (sys_epoll_pwait s.1 s.1.epoll_fd ready).1.foldl (fun st ev => listener_event st ev t_ready)
    ((sys_epoll_pwait s.1 s.1.epoll_fd ready).2, s.2)

/-! ## Sample runs of the event loop -/

/-- Outcomes for an event on which `read` returns 0: the peer has closed. -/
def eof_env : Env :=
  { quiet with rd := ReadRes.data [] }

/-- The sample session after the client closed its end: the worker finds `read`
returning 0 on the socket. -/
def w_closed : World := (handle_io w_session 6 eof_env).getD boot

/-- Outcomes for the next event on the listening descriptor: descriptors 6 and 8 are
free again and 7 (the timer of the first client) is still open, so the new client is
accepted on descriptor 6 and its handshake timer is descriptor 8. -/
def accept_env2 : Env :=
  { accept_env with timerfd_ret := 8 }

/-- The world after a second client was accepted on the reused descriptor 6. -/
def w_second : World := (handle_io w_closed 5 accept_env2).getD boot

/-- One pass of `epoll_listener` in which only the listening descriptor is ready,
followed by the worker that serves the queued descriptor. -/
def accept_pass (s : World × List Int) (env : Env) : Option (World × List Int) :=
  worker_step (epoll_listener_pass s [(s.1.listen_fd, EPOLLIN)] []) env

/-- One pass of `epoll_listener` in which the timer set is ready because the timers
`timers` have expired. -/
def expiry_pass (s : World × List Int) (timers : List Int) : World × List Int :=
  epoll_listener_pass s [(s.1.t_epoll_fd, EPOLLIN)] (timers.map fun t => (t, EPOLLIN))

/-- The server from start-up: a client is accepted (descriptor 6, timer 7), stays silent,
and its timer expires. -/
def first_expiry : Option (World × List Int) :=
  (accept_pass (boot, []) accept_env).map fun s => expiry_pass s [7]

/-- After `first_expiry`: another client is accepted (again descriptor 6, timer 7). -/
def second_accept : Option (World × List Int) :=
  first_expiry.bind fun s => accept_pass s accept_env

/-- After `second_accept`: the second client stays silent and its timer expires. -/
def second_expiry : Option (World × List Int) :=
  second_accept.map fun s => expiry_pass s [7]

/-- What is left of client 6 in a state of the loop: its table slot, whether its socket
is open, the state of its record and the queue of the worker pool. -/
def client6_report (s : World × List Int) : Option Int × Bool × cstate × List Int :=
  (s.1.client_fd_tuples 6, s.1.open_fds 6, (s.1.client_fd_tuples_mem 6).state, s.2)

/-- The `write` calls among system calls. -/
def Event.is_write : Event → Bool
  | Event.write _ _ _ => true
  | _ => false

/-- The `epoll_ctl` calls with `EPOLL_CTL_MOD` among system calls. -/
def Event.is_mod : Event → Bool
  | Event.epoll_ctl _ EpollOp.MOD _ _ _ => true
  | _ => false

/-- The successful `close` calls among system calls. -/
def Event.is_closing : Event → Bool
  | Event.close _ ret => decide (ret ≠ -1)
  | _ => false

/-- Two worlds agree on the program's tables and on the kernel objects (they may differ
in `errno` and in the trace). -/
def same_state (w v : World) : Prop :=
  v.client_fd_tuples = w.client_fd_tuples ∧
  v.client_fd_tuples_mem = w.client_fd_tuples_mem ∧
  v.timer_fd_tuples = w.timer_fd_tuples ∧
  v.epoll_fd = w.epoll_fd ∧ v.t_epoll_fd = w.t_epoll_fd ∧ v.listen_fd = w.listen_fd ∧
  v.open_fds = w.open_fds ∧ v.epoll_set = w.epoll_set ∧ v.t_epoll_set = w.t_epoll_set

/-- Descriptor `fd` has nothing to delete in the epoll instance `e`. -/
def del_noop (w : World) (e fd : Int) : Prop :=
  w.open_fds fd ≠ true ∨ (e = w.epoll_fd ∧ w.epoll_set fd = none) ∨
    (e ≠ w.epoll_fd ∧ e = w.t_epoll_fd ∧ w.t_epoll_set fd = none) ∨
    (e ≠ w.epoll_fd ∧ e ≠ w.t_epoll_fd)

/-- The step from `w` to `v` changes no table, record or kernel object and closes
nothing: the calls it adds to the trace hold no successful `close`. -/
def changes_nothing (w v : World) : Prop :=
  same_state w v ∧ ∃ t, v.trace = w.trace ++ t ∧ ∀ e ∈ t, Event.is_closing e = false

/-- The world in which client 6 has been accepted and registered and
`initiate_handshake` is about to run. -/
def w_registered : World := (register_client (sys_accept boot accept_env).2 6).2

/-- The sample session when both of its descriptors are reported readable in one pass
of `epoll_listener`: both are queued for the workers. -/
def both_ready : World × List Int :=
  epoll_listener_pass (w_session, []) [(6, EPOLLIN), (8, EPOLLIN)] []

/-- From `w` to `v` the descriptors of the main epoll instance and of the listening
socket are the same and the calls added to the trace hold no `EPOLL_CTL_MOD`. -/
def no_mod_since (w v : World) : Prop :=
  v.epoll_fd = w.epoll_fd ∧ v.listen_fd = w.listen_fd ∧
    ∃ t, v.trace = w.trace ++ t ∧ ∀ e ∈ t, Event.is_mod e = false

/-- Outcomes for the event on which the socket of the sample session delivers `ABCDEF`
and the PTY accepts two bytes of it. -/
def carry_env : Env :=
  { quiet with rd := ReadRes.data [65, 66, 67, 68, 69, 70], wr := WriteRes.count 2 }

/-- The sample session after `handle_io` served that event on the socket: the record is
`unwritten` with carry-over `CDEF`, read from the socket (6) for the PTY master (8). -/
def w_pending : World := (handle_io w_session 6 carry_env).getD boot

/-- The next event is on the PTY master, which has output of the shell to deliver: the
pass of `epoll_listener` queues descriptor 8 and a worker serves it; the `write` it
issues accepts all four bytes offered. -/
def pty_event : Option (World × List Int) :=
  worker_step (epoll_listener_pass (w_pending, []) [(8, EPOLLIN)] [])
    { quiet with wr := WriteRes.count 4 }

end Lab5

/-!
# Lab3 remote-shell server (`src/Lab3/server.c`): the handshake

`handshake` runs in a thread of its own per client and touches no global of the
program, so its state is the trace of the calls it has issued.  The outcomes of its
`read` and `write` calls and the values it finds in its local `alarm_flag`, which the
`SIGALRM` handler sets to 1 through `si_ptr` when the three-second timer fires, are
inputs (`Env`).
-/

namespace Lab3

open Lab5 (Byte ReadRes WriteRes strcmp)

/-- Constant `#define MAX_LENGTH 4096`. -/
def MAX_LENGTH : Nat := 4096

/-- Constant `#define SECRET "cs407rembash\n"` (the 13 bytes, without the terminating NUL). -/
def SECRET : List Byte := [99, 115, 52, 48, 55, 114, 101, 109, 98, 97, 115, 104, 10]

/-- Constant `#define CHALLENGE "<rembash>\n"`. -/
def CHALLENGE : List Byte := [60, 114, 101, 109, 98, 97, 115, 104, 62, 10]

/-- Constant `#define PROCEED "<ok>\n"`. -/
def PROCEED : List Byte := [60, 111, 107, 62, 10]

/-- Constant `#define ERROR "<error>\n"`. -/
def ERROR : List Byte := [60, 101, 114, 114, 111, 114, 62, 10]

/-- Calls issued by `handshake`, in program order.  The results of `sigaction`,
`timer_create`, `timer_settime`, `signal` and `timer_delete` only select a message on
`stderr` and are not recorded. -/
inductive Event where
  | sigaction
  | timer_create
  | timer_settime (secs : Nat)
  | write (fd : Int) (buf : List Byte) (res : WriteRes)
  | read (fd : Int) (count : Nat) (res : ReadRes)
  | signal_ign
  | timer_delete
deriving DecidableEq, Repr

/-- Outcomes of the outside world for one call of `handshake`: `alarm1`, `alarm2` and
`alarm3` are the values found in `alarm_flag` by the first, second and third `if`;
`wr1` is the outcome of the `write` of the challenge, `rd` of the `read` of the reply,
`wr2` of the `write` of the verdict. -/
structure Env where
  alarm1 : Int
  alarm2 : Int
  alarm3 : Int
  wr1 : WriteRes
  rd : ReadRes
  wr2 : WriteRes

/-- System call `write(fd, buf, len)` where `buf` lists the `len` bytes offered. -/
def sys_write (t : List Event) (fd : Int) (buf : List Byte) (wr : WriteRes) : Int × List Event :=
  match wr with
  | WriteRes.count k => ((k : Int), t ++ [Event.write fd buf wr])
  | WriteRes.err _ => (-1, t ++ [Event.write fd buf wr])

/-- System call `read(fd, buf, count)`, returning the return value and the bytes stored. -/
def sys_read (t : List Event) (fd : Int) (count : Nat) (rd : ReadRes) :
    Int × List Byte × List Event :=
  match rd with
  | ReadRes.data bs => ((bs.length : Int), bs, t ++ [Event.read fd count rd])
  | ReadRes.err _ => (-1, [], t ++ [Event.read fd count rd])

/-- Function `char *read_client_message(int client_fd)`: `NULL` is `none`; otherwise the
bytes read followed by the NUL stored at `msg[nread]`. -/
def read_client_message (t : List Event) (client_fd : Int) (rd : ReadRes) :
    Option (List Byte) × List Event :=
  let r := sys_read t client_fd (MAX_LENGTH - 1) rd
  if r.1 ≤ 0 then (none, r.2.2)
  else (some (r.2.1 ++ [0]), r.2.2)

/-- Value of the C expression `a || b`, of type `int`: 1 when either operand is non-zero,
0 otherwise. -/
def lor (a b : Int) : Int := if a ≠ 0 ∨ b ≠ 0 then 1 else 0

/-- Function `int handshake(int client_fd)`.  In `alarm_flag || write(...)` the `write`
is evaluated only when `alarm_flag` is 0, and the value compared with -1 is that of the
`||` expression.  In the second and third `if` the comparison binds tighter than `||`. -/
def handshake (t : List Event) (client_fd : Int) (env : Env) : Int × List Event :=
  let t0 := t ++ [Event.sigaction, Event.timer_create, Event.timer_settime 3]
  let c : Int × List Event :=
    if env.alarm1 ≠ 0 then (lor env.alarm1 0, t0)
    else (lor env.alarm1 (sys_write t0 client_fd CHALLENGE env.wr1).1,
      (sys_write t0 client_fd CHALLENGE env.wr1).2)
  if c.1 = -1 then (-1, c.2)
  else if env.alarm2 ≠ 0 then (-1, c.2)
  else
    let m := read_client_message c.2 client_fd env.rd
    match m.1 with
    | none => (-1, m.2)
    | some pass =>
      if env.alarm3 ≠ 0 ∨ strcmp pass (SECRET ++ [0]) ≠ 0 then
        (-1, (sys_write m.2 client_fd ERROR env.wr2).2)
      else
        (0, (sys_write m.2 client_fd PROCEED env.wr2).2 ++ [Event.signal_ign, Event.timer_delete])

/-- The `read` and `write` calls among the calls of `handshake`. -/
def Event.is_io : Event → Bool
  | Event.write _ _ _ => true
  | Event.read _ _ _ => true
  | _ => false

/-- Outcomes of a handshake in which the alarm never fires, the `write` of the challenge
has the outcome `wr1`, the client sends `m` and the verdict is written in full. -/
def reply_env (wr1 : WriteRes) (m : List Byte) : Env :=
  { alarm1 := 0, alarm2 := 0, alarm3 := 0, wr1 := wr1, rd := ReadRes.data m,
    wr2 := WriteRes.count 5 }
end Lab3

namespace Lab5

/-! ## Sample runs are defined -/

theorem accepted_eq : accepted = some w_accepted := rfl

theorem session_eq : session = some w_session := rfl

theorem w_carry_eq :
    transfer_data w_session 6 (ReadRes.data [65, 66, 67, 68, 69, 70]) (WriteRes.count 2) 0 =
      some w_carry := rfl

/-! ## System-call lemmas -/

@[simp] theorem sys_epoll_ctl_tuples (w : World) (e : Int) (op : EpollOp) (fd : Int) (ev : Nat) :
    (sys_epoll_ctl w e op fd ev).2.client_fd_tuples = w.client_fd_tuples := by
  unfold sys_epoll_ctl
  split_ifs <;> (try split) <;> rfl

@[simp] theorem sys_epoll_ctl_mem (w : World) (e : Int) (op : EpollOp) (fd : Int) (ev : Nat) :
    (sys_epoll_ctl w e op fd ev).2.client_fd_tuples_mem = w.client_fd_tuples_mem := by
  unfold sys_epoll_ctl
  split_ifs <;> (try split) <;> rfl

@[simp] theorem sys_epoll_ctl_timer_tuples (w : World) (e : Int) (op : EpollOp) (fd : Int)
    (ev : Nat) : (sys_epoll_ctl w e op fd ev).2.timer_fd_tuples = w.timer_fd_tuples := by
  unfold sys_epoll_ctl
  split_ifs <;> (try split) <;> rfl

@[simp] theorem sys_epoll_ctl_open (w : World) (e : Int) (op : EpollOp) (fd : Int) (ev : Nat) :
    (sys_epoll_ctl w e op fd ev).2.open_fds = w.open_fds := by
  unfold sys_epoll_ctl
  split_ifs <;> (try split) <;> rfl

@[simp] theorem sys_epoll_ctl_epoll_fd (w : World) (e : Int) (op : EpollOp) (fd : Int) (ev : Nat) :
    (sys_epoll_ctl w e op fd ev).2.epoll_fd = w.epoll_fd := by
  unfold sys_epoll_ctl
  split_ifs <;> (try split) <;> rfl

@[simp] theorem sys_epoll_ctl_t_epoll_fd (w : World) (e : Int) (op : EpollOp) (fd : Int)
    (ev : Nat) : (sys_epoll_ctl w e op fd ev).2.t_epoll_fd = w.t_epoll_fd := by
  unfold sys_epoll_ctl
  split_ifs <;> (try split) <;> rfl

@[simp] theorem sys_epoll_ctl_listen_fd (w : World) (e : Int) (op : EpollOp) (fd : Int)
    (ev : Nat) : (sys_epoll_ctl w e op fd ev).2.listen_fd = w.listen_fd := by
  unfold sys_epoll_ctl
  split_ifs <;> (try split) <;> rfl

@[simp] theorem sys_epoll_ctl_trace (w : World) (e : Int) (op : EpollOp) (fd : Int) (ev : Nat) :
    (sys_epoll_ctl w e op fd ev).2.trace =
      w.trace ++ [Event.epoll_ctl e op fd ev (sys_epoll_ctl w e op fd ev).1] := by
  unfold sys_epoll_ctl
  split_ifs <;> (try split) <;> simp [log]

@[simp] theorem sys_close_trace (w : World) (fd : Int) :
    (sys_close w fd).2.trace = w.trace ++ [Event.close fd (sys_close w fd).1] := by
  unfold sys_close
  split_ifs <;> simp [log]

@[simp] theorem sys_close_mem (w : World) (fd : Int) :
    (sys_close w fd).2.client_fd_tuples_mem = w.client_fd_tuples_mem := by
  unfold sys_close
  split_ifs <;> rfl

@[simp] theorem sys_close_tuples (w : World) (fd : Int) :
    (sys_close w fd).2.client_fd_tuples = w.client_fd_tuples := by
  unfold sys_close
  split_ifs <;> rfl

@[simp] theorem sys_close_listen_fd (w : World) (fd : Int) :
    (sys_close w fd).2.listen_fd = w.listen_fd := by
  unfold sys_close
  split_ifs <;> rfl

@[simp] theorem sys_close_epoll_fd (w : World) (fd : Int) :
    (sys_close w fd).2.epoll_fd = w.epoll_fd := by
  unfold sys_close
  split_ifs <;> rfl

@[simp] theorem sys_close_t_epoll_fd (w : World) (fd : Int) :
    (sys_close w fd).2.t_epoll_fd = w.t_epoll_fd := by
  unfold sys_close
  split_ifs <;> rfl

theorem sys_close_open (w : World) (fd x : Int) (h : w.open_fds x = false) :
    (sys_close w fd).2.open_fds x = false := by
  unfold sys_close
  split_ifs <;> simp [log, upd, h]

theorem sys_close_ok (w : World) (fd : Int) (h : w.open_fds fd = true) :
    (sys_close w fd).1 = 0 ∧ (sys_close w fd).2.open_fds fd = false := by
  simp [sys_close, h, log, upd]

theorem sys_write_fields (w : World) (fd : Int) (buf : List Byte) (wr : WriteRes) :
    (sys_write w fd buf wr).2.client_fd_tuples = w.client_fd_tuples ∧
    (sys_write w fd buf wr).2.client_fd_tuples_mem = w.client_fd_tuples_mem ∧
    (sys_write w fd buf wr).2.open_fds = w.open_fds ∧
    (sys_write w fd buf wr).2.listen_fd = w.listen_fd ∧
    (sys_write w fd buf wr).2.epoll_fd = w.epoll_fd ∧
    (sys_write w fd buf wr).2.epoll_set = w.epoll_set ∧
    (sys_write w fd buf wr).2.trace = w.trace ++ [Event.write fd buf wr] := by
  cases wr <;> simp [sys_write, log]

@[simp] theorem sys_write_tuples (w : World) (fd : Int) (buf : List Byte) (wr : WriteRes) :
    (sys_write w fd buf wr).2.client_fd_tuples = w.client_fd_tuples :=
  (sys_write_fields w fd buf wr).1

@[simp] theorem sys_write_mem (w : World) (fd : Int) (buf : List Byte) (wr : WriteRes) :
    (sys_write w fd buf wr).2.client_fd_tuples_mem = w.client_fd_tuples_mem :=
  (sys_write_fields w fd buf wr).2.1

@[simp] theorem sys_write_open (w : World) (fd : Int) (buf : List Byte) (wr : WriteRes) :
    (sys_write w fd buf wr).2.open_fds = w.open_fds :=
  (sys_write_fields w fd buf wr).2.2.1

@[simp] theorem sys_write_listen_fd (w : World) (fd : Int) (buf : List Byte) (wr : WriteRes) :
    (sys_write w fd buf wr).2.listen_fd = w.listen_fd :=
  (sys_write_fields w fd buf wr).2.2.2.1

@[simp] theorem sys_write_epoll_fd (w : World) (fd : Int) (buf : List Byte) (wr : WriteRes) :
    (sys_write w fd buf wr).2.epoll_fd = w.epoll_fd :=
  (sys_write_fields w fd buf wr).2.2.2.2.1

@[simp] theorem sys_write_epoll_set (w : World) (fd : Int) (buf : List Byte) (wr : WriteRes) :
    (sys_write w fd buf wr).2.epoll_set = w.epoll_set :=
  (sys_write_fields w fd buf wr).2.2.2.2.2.1

@[simp] theorem sys_write_trace (w : World) (fd : Int) (buf : List Byte) (wr : WriteRes) :
    (sys_write w fd buf wr).2.trace = w.trace ++ [Event.write fd buf wr] :=
  (sys_write_fields w fd buf wr).2.2.2.2.2.2

/-! ## `graceful_exit` -/

@[simp] theorem close_and_clear_mem (w : World) (fd : Int) :
    (close_and_clear w fd).client_fd_tuples_mem = w.client_fd_tuples_mem := by
  unfold close_and_clear
  split_ifs <;> simp

@[simp] theorem close_and_clear_listen_fd (w : World) (fd : Int) :
    (close_and_clear w fd).listen_fd = w.listen_fd := by
  unfold close_and_clear
  split_ifs <;> simp

@[simp] theorem close_and_clear_epoll_fd (w : World) (fd : Int) :
    (close_and_clear w fd).epoll_fd = w.epoll_fd := by
  unfold close_and_clear
  split_ifs <;> simp

@[simp] theorem close_and_clear_trace (w : World) (fd : Int) :
    (close_and_clear w fd).trace = w.trace ++ [Event.close fd (sys_close w fd).1] := by
  unfold close_and_clear
  split_ifs <;> simp

theorem close_and_clear_none (w : World) (fd x : Int) (h : w.client_fd_tuples x = none) :
    (close_and_clear w fd).client_fd_tuples x = none := by
  unfold close_and_clear
  split_ifs <;> simp [upd, h]

theorem close_and_clear_closed (w : World) (fd x : Int) (h : w.open_fds x = false) :
    (close_and_clear w fd).open_fds x = false := by
  unfold close_and_clear
  split_ifs <;> simp [sys_close_open, h]

theorem close_and_clear_ok (w : World) (fd : Int) (h : w.open_fds fd = true) :
    (close_and_clear w fd).client_fd_tuples fd = none ∧
      (close_and_clear w fd).open_fds fd = false := by
  unfold close_and_clear
  simp [sys_close_ok w fd h, upd]

/-- The body of `graceful_exit` on a set slot, with the test that follows the
assignment of `terminated` resolved. -/
theorem graceful_exit_eq (w : World) (fd p : Int) (hp : w.client_fd_tuples fd = some p) :
    graceful_exit w fd =
      if (w.client_fd_tuples_mem p).state = cstate.new then
        close_and_clear
          (sys_epoll_ctl
            (sys_epoll_ctl w w.epoll_fd EpollOp.DEL (w.client_fd_tuples_mem p).socket_fd 0).2
            w.t_epoll_fd EpollOp.DEL (w.client_fd_tuples_mem p).timer_fd 0).2
          (w.client_fd_tuples_mem p).socket_fd
      else
        close_and_clear
          (sys_epoll_ctl
            (close_and_clear
              (sys_epoll_ctl
                (set_client w p { w.client_fd_tuples_mem p with state := cstate.terminated })
                w.epoll_fd EpollOp.DEL (w.client_fd_tuples_mem p).socket_fd 0).2
              (w.client_fd_tuples_mem p).socket_fd)
            w.epoll_fd EpollOp.DEL (w.client_fd_tuples_mem p).pty_fd 0).2
          (w.client_fd_tuples_mem p).pty_fd := by
  unfold graceful_exit
  simp only [hp]
  split_ifs with h1 h2
  · simp
  · simp [set_client, upd]
  · exfalso
    apply h2
    simp [set_client, upd]

theorem graceful_exit_null (w : World) (fd : Int) (hp : w.client_fd_tuples fd = none) :
    graceful_exit w fd = w := by
  unfold graceful_exit
  simp [hp]

@[simp] theorem graceful_exit_listen_fd (w : World) (fd : Int) :
    (graceful_exit w fd).listen_fd = w.listen_fd := by
  cases hp : w.client_fd_tuples fd with
  | none => rw [graceful_exit_null w fd hp]
  | some p =>
    rw [graceful_exit_eq w fd p hp]
    split_ifs <;> simp [set_client]

@[simp] theorem graceful_exit_epoll_fd (w : World) (fd : Int) :
    (graceful_exit w fd).epoll_fd = w.epoll_fd := by
  cases hp : w.client_fd_tuples fd with
  | none => rw [graceful_exit_null w fd hp]
  | some p =>
    rw [graceful_exit_eq w fd p hp]
    split_ifs <;> simp [set_client]

theorem graceful_exit_trace (w : World) (fd : Int) :
    ∃ t, (graceful_exit w fd).trace = w.trace ++ t ∧ ∀ e ∈ t, Event.is_teardown e = true := by
  cases hp : w.client_fd_tuples fd with
  | none =>
    rw [graceful_exit_null w fd hp]
    exact ⟨[], by simp, by simp⟩
  | some p =>
    rw [graceful_exit_eq w fd p hp]
    split_ifs
    · exact ⟨_, by simp; rfl, by simp [Event.is_teardown]⟩
    · exact ⟨_, by simp [set_client]; rfl, by simp [Event.is_teardown]⟩

theorem graceful_exit_closes (w : World) (fd p : Int)
    (hp : w.client_fd_tuples fd = some p)
    (hsock : (w.client_fd_tuples_mem p).socket_fd = fd)
    (hopen : w.open_fds fd = true) :
    (graceful_exit w fd).client_fd_tuples fd = none ∧
      (graceful_exit w fd).open_fds fd = false := by
  rw [graceful_exit_eq w fd p hp, hsock]
  split_ifs
  · apply close_and_clear_ok
    simp [hopen]
  · have h := close_and_clear_ok (sys_epoll_ctl (set_client w p
        { w.client_fd_tuples_mem p with state := cstate.terminated })
        w.epoll_fd EpollOp.DEL fd 0).2 fd (by simp [set_client, hopen])
    exact ⟨close_and_clear_none _ _ _ (by simp [h.1]),
      close_and_clear_closed _ _ _ (by simp [h.2])⟩

theorem graceful_exit_mem (w : World) (fd q : Int) :
    (graceful_exit w fd).client_fd_tuples_mem q = w.client_fd_tuples_mem q ∨
    ((w.client_fd_tuples_mem q).state ≠ cstate.new ∧
      (graceful_exit w fd).client_fd_tuples_mem q =
        { w.client_fd_tuples_mem q with state := cstate.terminated }) := by
  cases hp : w.client_fd_tuples fd with
  | none => rw [graceful_exit_null w fd hp]; exact Or.inl rfl
  | some p =>
    rw [graceful_exit_eq w fd p hp]
    split_ifs with hnew
    · left; simp
    · by_cases hq : q = p
      · right
        subst hq
        exact ⟨hnew, by simp [set_client, upd]⟩
      · left
        simp [set_client, upd, hq]

/-! ## `strcmp` against a literal -/

theorem strcmp_nul_eq_zero_iff (m s : List Byte) (hs : ∀ b ∈ s, b ≠ 0) :
    strcmp (m ++ [0]) (s ++ [0]) = 0 ↔ c_string m = s := by
  unfold c_string
  induction m generalizing s with
  | nil =>
    cases s with
    | nil => simp [strcmp]
    | cons b s =>
      have hb : b ≠ 0 := hs b (List.mem_cons_self _ _)
      have hb2 : (0 : Nat) ≠ b := fun h => hb h.symm
      simp [strcmp, hb, hb2]
  | cons a m ih =>
    cases s with
    | nil =>
      by_cases ha : a = 0
      · simp [strcmp, ha]
      · simp [strcmp, ha, List.takeWhile_cons]
    | cons b s =>
      have hb : b ≠ 0 := hs b (List.mem_cons_self _ _)
      have hb2 : (0 : Nat) ≠ b := fun h => hb h.symm
      have hs2 : ∀ c ∈ s, c ≠ 0 := fun c hc => hs c (List.mem_cons_of_mem _ hc)
      by_cases hab : a = b
      · subst hab
        simp [strcmp, hb, List.takeWhile_cons, ih s hs2]
      · have hne : (a : Int) - (b : Int) ≠ 0 := by
          intro h
          exact hab (by exact_mod_cast sub_eq_zero.mp h)
        by_cases ha : a = 0
        · simp [strcmp, hab, hne, ha, List.takeWhile_cons, hb, hb2]
        · simp [strcmp, hab, hne, ha, List.takeWhile_cons]

theorem SECRET_no_nul : ∀ b ∈ SECRET, b ≠ 0 := by decide

/-! ## C1: byte fidelity of the relay -/

/-- C1 (fails on the code): the socket of the session delivers `ABCDEF`, the PTY accepts
`AB`; the next call finds the PTY not writable (`write` returns -1 with `EAGAIN`) and
discards the carry-over `CDEF`, leaving `nunwritten = 0` in state `established`; the
socket then delivers `GH`, written in full.  The PTY has accepted `ABGH`, which is
neither equal to nor a prefix of the bytes read, `ABCDEFGH`. -/
theorem transfer_data_drops_carry_over :
    relay_report 6 8
        [(6, ReadRes.data [65, 66, 67, 68, 69, 70], WriteRes.count 2, 0),
         (6, ReadRes.err EAGAIN, WriteRes.err EAGAIN, 0),
         (6, ReadRes.data [71, 72], WriteRes.count 2, 0)] =
      some (cstate.established, 0, [65, 66, 67, 68, 69, 70, 71, 72], [65, 66, 71, 72]) ∧
    ¬ ([65, 66, 71, 72] <+: [65, 66, 67, 68, 69, 70, 71, 72]) := by
  constructor
  · rfl
  · decide

/-! ## C2: what `validate_client` accepts -/

/-- C2 (as stated, fails): the 15-byte message made of the secret, a NUL byte and `A`
is not the secret, yet `validate_client` returns 0 for it. -/
theorem validate_client_accepts_nul_suffix :
    SECRET ++ [0, 65] ≠ SECRET ∧ (SECRET ++ [0, 65]).length ≤ 4095 ∧
    (validate_client w_accepted 6 (ReadRes.data (SECRET ++ [0, 65])) (WriteRes.count 8)).map
      Prod.fst = some 0 := by
  refine ⟨by decide, by decide, rfl⟩

/-- C2 (amended): for a client whose table slot is set and a non-empty message `m` of at
most 4095 bytes returned by the single `read`, `validate_client` returns, and it
returns 0 exactly when the bytes of `m` before its first NUL byte (all of `m` when it
has none) are the secret. -/
theorem validate_client_accepts_iff (w : World) (fd p : Int) (m : List Byte) (wr : WriteRes)
    (hm : m ≠ []) (_hlen : m.length ≤ MAX_LENGTH - 1)
    (hp : w.client_fd_tuples fd = some p) :
    ∃ r, (validate_client w fd (ReadRes.data m) wr).map Prod.fst = some r ∧
      (r = 0 ↔ c_string m = SECRET) := by
  have hpos : ¬ ((m.length : Int) ≤ 0) := by
    have : 0 < m.length := List.length_pos.mpr hm
    omega
  by_cases hs : strcmp (m ++ [0]) (SECRET ++ [0]) = 0
  · refine ⟨0, ?_, ?_⟩
    · simp [validate_client, read_client_message, sys_read, hpos, log, hp, hs]
    · simpa using (strcmp_nul_eq_zero_iff m SECRET SECRET_no_nul).mp hs
  · refine ⟨-1, ?_, ?_⟩
    · simp [validate_client, read_client_message, sys_read, hpos, log, hp, hs]
    · have := (strcmp_nul_eq_zero_iff m SECRET SECRET_no_nul).not.mp hs
      simpa using this

/-- Witness for C2 (amended): client 6 of the sample run answers `wrong\n`. -/
theorem validate_client_accepts_iff_witness :
    [119, 114, 111, 110, 103, 10] ≠ ([] : List Byte) ∧
    w_accepted.client_fd_tuples 6 = some 6 ∧
    ∃ r, (validate_client w_accepted 6 (ReadRes.data [119, 114, 111, 110, 103, 10])
        (WriteRes.count 8)).map Prod.fst = some r ∧
      (r = 0 ↔ c_string [119, 114, 111, 110, 103, 10] = SECRET) :=
  ⟨by decide, rfl,
    validate_client_accepts_iff w_accepted 6 6 [119, 114, 111, 110, 103, 10] (WriteRes.count 8)
      (by decide) (by decide) rfl⟩

/-! ## C3: wrong secret -/

/-- Rejection by `validate_client` of a message whose C string is not the secret. -/
theorem validate_client_reject (w : World) (fd p : Int) (m : List Byte) (wr : WriteRes)
    (hm : m ≠ []) (hp : w.client_fd_tuples fd = some p) (hbad : c_string m ≠ SECRET) :
    ∃ wv, validate_client w fd (ReadRes.data m) wr = some (-1, wv) ∧
      wv.client_fd_tuples = w.client_fd_tuples ∧
      (wv.client_fd_tuples_mem p).socket_fd = (w.client_fd_tuples_mem p).socket_fd ∧
      wv.open_fds = w.open_fds ∧ wv.listen_fd = w.listen_fd ∧
      wv.trace = w.trace ++
        [Event.read fd (MAX_LENGTH - 1) (ReadRes.data m), Event.write fd ERROR wr] := by
  have hpos : ¬ ((m.length : Int) ≤ 0) := by
    have : 0 < m.length := List.length_pos.mpr hm
    omega
  have hs : strcmp (m ++ [0]) (SECRET ++ [0]) ≠ 0 :=
    (strcmp_nul_eq_zero_iff m SECRET SECRET_no_nul).not.mpr hbad
  refine ⟨(sys_write (set_client (log w (Event.read fd (MAX_LENGTH - 1) (ReadRes.data m))) p
    { w.client_fd_tuples_mem p with state := cstate.validated }) fd ERROR wr).2, ?_, ?_⟩
  · simp only [validate_client, read_client_message, sys_read, hpos, if_false, log, hp, hs,
      ne_eq, not_false_eq_true, if_true]
  · simp [set_client, upd, log]

/-- C3 (as stated, fails): client 6 is in state `new` and sends the secret followed by
a NUL byte and `A`, a message that differs from the secret; `handle_io` writes no
`<error>\n`, calls `open_pty` (`posix_openpt`, `fork`), writes `<ok>\n`, and leaves the
socket open with its table slot set. -/
theorem handle_io_nul_suffix_opens_pty :
    SECRET ++ [0, 65] ≠ SECRET ∧
    (w_accepted.client_fd_tuples_mem 6).state = cstate.new ∧
    answer_report (SECRET ++ [0, 65]) (WriteRes.count 5) =
      some ([Event.read 6 4095 (ReadRes.data (SECRET ++ [0, 65])),
             Event.posix_openpt 8,
             Event.epoll_ctl 3 EpollOp.ADD 8 (EPOLLIN ||| EPOLLET ||| EPOLLONESHOT) 0,
             Event.fork,
             Event.write 6 PROCEED (WriteRes.count 5),
             Event.epoll_ctl 3 EpollOp.MOD 6 (EPOLLIN ||| EPOLLET ||| EPOLLONESHOT) 0],
            some 6, true) := by
  refine ⟨by decide, rfl, rfl⟩

/-- C3 (amended): for a client in state `new` (slot set, socket open, not the listening
descriptor) whose received message, read up to its first NUL byte, differs from the
secret, `handle_io` returns; besides `close` and `epoll_ctl` calls it issues exactly
the `read` and one `write` of the eight bytes `<error>\n` on the client socket (so no
`posix_openpt`, no `fork`, no `<ok>\n`); afterwards the socket is closed and its
table slot is cleared. -/
theorem handle_io_wrong_secret (w : World) (fd p : Int) (env : Env) (m : List Byte)
    (hfd : fd ≠ w.listen_fd) (hp : w.client_fd_tuples fd = some p)
    (hst : (w.client_fd_tuples_mem p).state = cstate.new)
    (hsock : (w.client_fd_tuples_mem p).socket_fd = fd)
    (hopen : w.open_fds fd = true)
    (hrd : env.rd = ReadRes.data m) (hm : m ≠ []) (hbad : c_string m ≠ SECRET) :
    ∃ w1 t, handle_io w fd env = some w1 ∧ w1.trace = w.trace ++ t ∧
      t.filter (fun e => !e.is_teardown) =
        [Event.read fd (MAX_LENGTH - 1) (ReadRes.data m), Event.write fd ERROR env.wr] ∧
      w1.open_fds fd = false ∧ w1.client_fd_tuples fd = none := by
  obtain ⟨wv, hv, hvt, hvs, hvo, hvl, hvtr⟩ := validate_client_reject w fd p m env.wr hm hp hbad
  obtain ⟨t, ht, hteardown⟩ := graceful_exit_trace wv fd
  have hc := graceful_exit_closes wv fd p (by rw [hvt, hp]) (by rw [hvs, hsock])
    (by rw [hvo, hopen])
  refine ⟨graceful_exit wv fd,
    [Event.read fd (MAX_LENGTH - 1) (ReadRes.data m), Event.write fd ERROR env.wr] ++ t,
    ?_, ?_, ?_, hc.2, hc.1⟩
  · have hfd2 : fd ≠ wv.listen_fd := by rw [hvl]; exact hfd
    simp [handle_io, hfd, get_cstate, hp, hst, hrd, hv, hfd2, hc.1]
  · rw [ht, hvtr]
    simp
  · have : t.filter (fun e => !e.is_teardown) = [] := by
      rw [List.filter_eq_nil_iff]
      intro e he
      simp [hteardown e he]
    rw [List.filter_append, this, List.append_nil]
    rfl



/-- Witness for C3 (amended): client 6 of the sample run sends `wrong\n`. -/
theorem handle_io_wrong_secret_witness :
    ∃ w1 t, handle_io w_accepted 6 (answer_env [119, 114, 111, 110, 103, 10] (WriteRes.count 8)) =
        some w1 ∧ w1.trace = w_accepted.trace ++ t ∧
      t.filter (fun e => !e.is_teardown) =
        [Event.read 6 (MAX_LENGTH - 1) (ReadRes.data [119, 114, 111, 110, 103, 10]),
         Event.write 6 ERROR (WriteRes.count 8)] ∧
      w1.open_fds 6 = false ∧ w1.client_fd_tuples 6 = none :=
  handle_io_wrong_secret w_accepted 6 6 (answer_env [119, 114, 111, 110, 103, 10] (WriteRes.count 8))
    [119, 114, 111, 110, 103, 10] (by decide) rfl rfl rfl rfl rfl (by decide) (by decide)

/-! ## C4: successful handshake -/

theorem validate_client_accept (w : World) (fd p : Int) (m : List Byte) (wr : WriteRes)
    (hm : m ≠ []) (hp : w.client_fd_tuples fd = some p) (hok : c_string m = SECRET) :
    ∃ wv, validate_client w fd (ReadRes.data m) wr = some (0, wv) ∧
      wv.client_fd_tuples = w.client_fd_tuples ∧
      wv.client_fd_tuples_mem p = { w.client_fd_tuples_mem p with state := cstate.validated } ∧
      wv.epoll_set = w.epoll_set ∧ wv.listen_fd = w.listen_fd ∧ wv.epoll_fd = w.epoll_fd ∧
      wv.trace = w.trace ++ [Event.read fd (MAX_LENGTH - 1) (ReadRes.data m)] := by
  have hpos : ¬ ((m.length : Int) ≤ 0) := by
    have : 0 < m.length := List.length_pos.mpr hm
    omega
  have hs : strcmp (m ++ [0]) (SECRET ++ [0]) = 0 :=
    (strcmp_nul_eq_zero_iff m SECRET SECRET_no_nul).mpr hok
  simp only [validate_client, read_client_message, sys_read, hpos, if_false, log, hp, hs,
    ne_eq, not_true_eq_false, if_false]
  refine ⟨_, rfl, ?_⟩
  simp [set_client, upd]

/-- The path of `open_pty` on which every step succeeds. -/
theorem open_pty_ok (w : World) (fd p : Int) (env : Env)
    (hp : w.client_fd_tuples fd = some p)
    (hpty : env.openpt_ret ≠ -1) (hsetup : env.pt_setup_ok = true)
    (hreg : w.epoll_set env.openpt_ret = none) :
    ∃ w2, open_pty w fd env = some (0, w2) ∧
      w2.client_fd_tuples_mem p =
        { w.client_fd_tuples_mem p with state := cstate.established, pty_fd := env.openpt_ret } ∧
      w2.client_fd_tuples fd = some p ∧ w2.client_fd_tuples env.openpt_ret = some p ∧
      w2.listen_fd = w.listen_fd ∧ w2.epoll_fd = w.epoll_fd ∧
      w2.trace = w.trace ++ [Event.posix_openpt env.openpt_ret,
        Event.epoll_ctl w.epoll_fd EpollOp.ADD env.openpt_ret
          (EPOLLIN ||| EPOLLET ||| EPOLLONESHOT) 0,
        Event.fork, Event.write fd PROCEED env.wr] := by
  have hadd : sys_epoll_ctl (sys_posix_openpt w env).2 w.epoll_fd EpollOp.ADD env.openpt_ret
      (EPOLLIN ||| EPOLLET ||| EPOLLONESHOT) =
      (0, log { (sys_posix_openpt w env).2 with
          epoll_set := upd w.epoll_set env.openpt_ret (some (EPOLLIN ||| EPOLLET ||| EPOLLONESHOT)) }
        (Event.epoll_ctl w.epoll_fd EpollOp.ADD env.openpt_ret
          (EPOLLIN ||| EPOLLET ||| EPOLLONESHOT) 0)) := by
    simp [sys_epoll_ctl, sys_posix_openpt, hpty, log, upd, epoll_apply, hreg]
  have h1 : (sys_posix_openpt w env).1 = env.openpt_ret := by simp [sys_posix_openpt, hpty]
  have h2 : (sys_posix_openpt w env).2.epoll_fd = w.epoll_fd := by
    simp [sys_posix_openpt, hpty, log]
  unfold open_pty
  simp only [h1, h2, hpty, hsetup, hadd, hp, if_false, ne_eq, not_true_eq_false]
  refine ⟨_, rfl, ?_⟩
  simp [set_client, upd, log, sys_posix_openpt, hpty, hp]

/-- C4: for a client in state `new` whose received message is the secret, when
`posix_openpt`, the PTY set-up calls and the registration of the new descriptor
succeed, `handle_io` returns with the record in state `established`, `pty_fd` the
new PTY master, the table entries at `socket_fd` and at `pty_fd` pointing to the same
record, and one `write` of exactly `<ok>\n` issued on the client socket. -/
theorem handle_io_handshake_ok (w : World) (fd p : Int) (env : Env)
    (hfd : fd ≠ w.listen_fd) (hp : w.client_fd_tuples fd = some p)
    (hst : (w.client_fd_tuples_mem p).state = cstate.new)
    (hsock : (w.client_fd_tuples_mem p).socket_fd = fd)
    (hrd : env.rd = ReadRes.data SECRET)
    (hpty : env.openpt_ret ≠ -1) (hsetup : env.pt_setup_ok = true)
    (hreg : w.epoll_set env.openpt_ret = none) :
    ∃ w1 r, handle_io w fd env = some w1 ∧
      (w1.client_fd_tuples_mem p).state = cstate.established ∧
      (w1.client_fd_tuples_mem p).pty_fd = env.openpt_ret ∧
      w1.client_fd_tuples (w1.client_fd_tuples_mem p).socket_fd = some p ∧
      w1.client_fd_tuples (w1.client_fd_tuples_mem p).pty_fd = some p ∧
      w1.trace = w.trace ++
        [Event.read fd (MAX_LENGTH - 1) (ReadRes.data SECRET),
         Event.posix_openpt env.openpt_ret,
         Event.epoll_ctl w.epoll_fd EpollOp.ADD env.openpt_ret
           (EPOLLIN ||| EPOLLET ||| EPOLLONESHOT) 0,
         Event.fork,
         Event.write fd PROCEED env.wr,
         Event.epoll_ctl w.epoll_fd EpollOp.MOD fd (EPOLLIN ||| EPOLLET ||| EPOLLONESHOT) r] := by
  obtain ⟨wv, hv, hvt, hvm, hve, hvl, hvf, hvtr⟩ :=
    validate_client_accept w fd p SECRET env.wr (by decide) hp (by decide)
  obtain ⟨w2, ho, hom, hot, hotp, hol, hof, hotr⟩ :=
    open_pty_ok wv fd p env (by rw [hvt, hp]) hpty hsetup (by rw [hve, hreg])
  have hfd2 : fd ≠ w2.listen_fd := by rw [hol, hvl]; exact hfd
  refine ⟨(sys_epoll_ctl w2 w2.epoll_fd EpollOp.MOD fd (EPOLLIN ||| EPOLLET ||| EPOLLONESHOT)).2,
    (sys_epoll_ctl w2 w2.epoll_fd EpollOp.MOD fd (EPOLLIN ||| EPOLLET ||| EPOLLONESHOT)).1,
    ?_, ?_, ?_, ?_, ?_, ?_⟩
  · simp [handle_io, hfd, get_cstate, hp, hst, hrd, hv, ho, hfd2, hot, hom]
  · simp [hom]
  · simp [hom]
  · simp [hom, hvm, hsock, hot]
  · simp [hom, hotp]
  · simp [hotr, hvtr, hof, hvf]


/-- Witness for C4: client 6 of the sample run sends the secret. -/
theorem handle_io_handshake_ok_witness :
    ∃ w1 r, handle_io w_accepted 6 (answer_env SECRET (WriteRes.count 5)) = some w1 ∧
      (w1.client_fd_tuples_mem 6).state = cstate.established ∧
      (w1.client_fd_tuples_mem 6).pty_fd = 8 ∧
      w1.client_fd_tuples (w1.client_fd_tuples_mem 6).socket_fd = some 6 ∧
      w1.client_fd_tuples (w1.client_fd_tuples_mem 6).pty_fd = some 6 ∧
      w1.trace = w_accepted.trace ++
        [Event.read 6 (MAX_LENGTH - 1) (ReadRes.data SECRET),
         Event.posix_openpt 8,
         Event.epoll_ctl 3 EpollOp.ADD 8 (EPOLLIN ||| EPOLLET ||| EPOLLONESHOT) 0,
         Event.fork,
         Event.write 6 PROCEED (WriteRes.count 5),
         Event.epoll_ctl 3 EpollOp.MOD 6 (EPOLLIN ||| EPOLLET ||| EPOLLONESHOT) r] :=
  handle_io_handshake_ok w_accepted 6 6 (answer_env SECRET (WriteRes.count 5))
    (by decide) rfl rfl rfl rfl (by decide) rfl rfl

/-! ## C5: bound on the carry-over -/

/-- C5 (fails on the code): the session has `nunwritten = 0`; an event on the socket
finds nothing to read (`read` returns -1 with `EAGAIN`), so no `write` assigns the local
`nwrite`; with -5000 left in it the test `nwrite < nread` succeeds and the record gets
`nunwritten = -1 - (-5000) = 4999`, more than the 4096 bytes of `unwritten`. -/
theorem transfer_data_stale_nwrite_exceeds_buffer :
    (w_session.client_fd_tuples_mem 6).nunwritten ≤ MAX_LENGTH ∧
    relay_report 6 8 [(6, ReadRes.err EAGAIN, WriteRes.err EAGAIN, -5000)] =
      some (cstate.unwritten, 4999, [], []) ∧
    ¬ (4999 ≤ MAX_LENGTH) := by
  refine ⟨by decide, rfl, by decide⟩

/-! What does hold of the bound: it is kept on every path where `nwrite` is assigned. -/

theorem all_bounded_of_mem (v w : World) (hm : v.client_fd_tuples_mem = w.client_fd_tuples_mem)
    (h : all_bounded w) : all_bounded v := by
  intro q; rw [hm]; exact h q

theorem all_bounded_set (v : World) (p : Int) (c : client_t) (hc : c.nunwritten ≤ MAX_LENGTH)
    (h : all_bounded v) : all_bounded (set_client v p c) := by
  intro q
  by_cases hq : q = p
  · simp [set_client, upd, hq, hc]
  · simpa [set_client, upd, hq] using h q

theorem graceful_exit_bounded (w : World) (fd : Int) (h : all_bounded w) :
    all_bounded (graceful_exit w fd) := by
  intro q
  rcases graceful_exit_mem w fd q with heq | ⟨_, heq⟩
  · rw [heq]; exact h q
  · rw [heq]; exact h q

theorem register_client_bounded (w : World) (sock : Int) (h : all_bounded w) :
    all_bounded (register_client w sock).2 ∧
      ((register_client w sock).2.client_fd_tuples_mem sock).nunwritten = 0 := by
  have hm : (register_client w sock).2.client_fd_tuples_mem =
      upd w.client_fd_tuples_mem sock { w.client_fd_tuples_mem sock with
        socket_fd := sock, state := cstate.new, pty_fd := -1, nunwritten := 0 } := by
    unfold register_client
    dsimp only
    split_ifs <;> simp [set_client]
  constructor
  · intro q
    rw [hm]
    by_cases hq : q = sock
    · simp [upd, hq]
    · simpa [upd, hq] using h q
  · rw [hm]; simp [upd]

/-- The bound `nunwritten ≤ MAX_LENGTH` is preserved by `transfer_data` whenever the
local `nwrite` cannot be below -1 when it is read unassigned (`-1 ≤ nwrite0`) and `read`
returns at most `MAX_LENGTH` bytes. -/
theorem transfer_data_bounded (w : World) (frm : Int) (rd : ReadRes) (wr : WriteRes) (g : Int)
    (w1 : World) (h : all_bounded w)
    (hrd : ∀ bs, rd = ReadRes.data bs → bs.length ≤ MAX_LENGTH)
    (hg : -1 ≤ g)
    (h1 : transfer_data w frm rd wr g = some w1) : all_bounded w1 := by
  unfold transfer_data at h1
  cases hp : w.client_fd_tuples frm with
  | none => simp [hp] at h1
  | some p =>
    simp only [hp] at h1
    generalize (if frm = (w.client_fd_tuples_mem p).pty_fd then (w.client_fd_tuples_mem p).socket_fd
      else (w.client_fd_tuples_mem p).pty_fd) = to_fd at h1
    by_cases hterm : (w.client_fd_tuples_mem p).state = cstate.terminated
    · simp only [hterm, if_true, Option.some.injEq] at h1
      subst h1
      exact h
    · simp only [hterm, if_false] at h1
      cases hcs : get_cstate w (w.client_fd_tuples_mem p).socket_fd with
      | none => simp [hcs] at h1
      | some st =>
        simp only [hcs] at h1
        by_cases hun : st = cstate.unwritten
        · simp only [hun, if_true, sys_write_mem] at h1
          have hpb := h p
          split_ifs at h1 with hgt <;> simp only [Option.some.injEq] at h1 <;> subst h1 <;>
            intro q <;> by_cases hq : q = p
          · subst hq
            simp only [set_client, upd, if_true]
            omega
          · simpa [set_client, upd, hq] using h q
          · subst hq
            simp [set_client, upd]
          · simpa [set_client, upd, hq] using h q
        · simp only [hun, if_false] at h1
          have hr : all_bounded (sys_read w frm MAX_LENGTH rd).2.2 :=
            all_bounded_of_mem _ w (by cases rd <;> rfl) h
          have hsw : ∀ (v : World) (fd : Int) (buf : List Byte),
              all_bounded v → all_bounded (sys_write v fd buf wr).2 :=
            fun v fd buf hv => all_bounded_of_mem _ v (by simp) hv
          have hg1 : ∀ v : World, all_bounded v → all_bounded (graceful_exit v frm) :=
            fun v hv => graceful_exit_bounded v frm hv
          have hF1 : (sys_read w frm MAX_LENGTH rd).1 ≤ (MAX_LENGTH : Int) := by
            cases rd with
            | data bs =>
              have := hrd bs rfl
              simp only [sys_read]
              exact_mod_cast this
            | err e =>
              simp only [sys_read]
              omega
          have hF2 : -1 ≤ (sys_write (sys_read w frm MAX_LENGTH rd).2.2 to_fd
              (sys_read w frm MAX_LENGTH rd).2.1 wr).1 := by
            cases wr <;> simp only [sys_write] <;> omega
          split_ifs at h1 <;> simp only [Option.some.injEq] at h1 <;> subst h1 <;>
            first
            | (apply all_bounded_set
               · simp only []; omega
               · repeat (first | exact hr | apply hsw | apply hg1))
            | (repeat (first | exact hr | apply hsw | apply hg1))

/-! ## C6: state/buffer agreement -/

/-- C6 (as stated, fails): `graceful_exit` on the session whose record is `unwritten`
with four bytes pending leaves the record `terminated` with `nunwritten = 4`. -/
theorem graceful_exit_keeps_pending_count :
    (w_carry.client_fd_tuples_mem 6).state = cstate.unwritten ∧
    ((graceful_exit w_carry 6).client_fd_tuples_mem 6).state = cstate.terminated ∧
    ((graceful_exit w_carry 6).client_fd_tuples_mem 6).nunwritten = 4 ∧
    ¬ (((graceful_exit w_carry 6).client_fd_tuples_mem 6).state = cstate.unwritten ↔
        0 < ((graceful_exit w_carry 6).client_fd_tuples_mem 6).nunwritten) := by
  refine ⟨rfl, rfl, rfl, by decide⟩

theorem all_agree_of_mem (v w : World) (hm : v.client_fd_tuples_mem = w.client_fd_tuples_mem)
    (h : all_agree w) : all_agree v := by
  intro q; rw [hm]; exact h q

theorem all_agree_sys_write (w : World) (fd : Int) (buf : List Byte) (wr : WriteRes)
    (h : all_agree w) : all_agree (sys_write w fd buf wr).2 :=
  all_agree_of_mem _ w (by simp) h

theorem all_agree_sys_read (w : World) (fd : Int) (n : Nat) (rd : ReadRes)
    (h : all_agree w) : all_agree (sys_read w fd n rd).2.2 :=
  all_agree_of_mem _ w (by cases rd <;> rfl) h

theorem all_agree_set_unwritten (v : World) (p : Int) (n : Nat) (b : List Byte) (hn : 0 < n)
    (h : all_agree v) :
    all_agree (set_client v p { v.client_fd_tuples_mem p with
      nunwritten := n, unwritten := b, state := cstate.unwritten }) := by
  intro q
  by_cases hq : q = p
  · subst hq
    simp [set_client, upd, buffer_agrees, hn]
  · have := h q
    simpa [set_client, upd, hq] using this


theorem graceful_exit_agrees (w : World) (fd : Int)
    (h : ∀ q, buffer_agrees (w.client_fd_tuples_mem q)) :
    ∀ q, buffer_agrees ((graceful_exit w fd).client_fd_tuples_mem q) := by
  intro q
  rcases graceful_exit_mem w fd q with heq | ⟨_, heq⟩
  · rw [heq]; exact h q
  · rw [heq]
    have hq := h q
    unfold buffer_agrees at *
    simp

theorem transfer_data_agrees (w : World) (frm : Int) (rd : ReadRes) (wr : WriteRes) (g : Int)
    (w1 : World) (h : ∀ q, buffer_agrees (w.client_fd_tuples_mem q))
    (h1 : transfer_data w frm rd wr g = some w1) :
    ∀ q, buffer_agrees (w1.client_fd_tuples_mem q) := by
  unfold transfer_data at h1
  cases hp : w.client_fd_tuples frm with
  | none => simp [hp] at h1
  | some p =>
    simp only [hp] at h1
    generalize (if frm = (w.client_fd_tuples_mem p).pty_fd then (w.client_fd_tuples_mem p).socket_fd
      else (w.client_fd_tuples_mem p).pty_fd) = to_fd at h1
    by_cases hterm : (w.client_fd_tuples_mem p).state = cstate.terminated
    · simp only [hterm, if_true, Option.some.injEq] at h1
      subst h1
      exact h
    · simp only [hterm, if_false] at h1
      cases hcs : get_cstate w (w.client_fd_tuples_mem p).socket_fd with
      | none => simp [hcs] at h1
      | some st =>
        simp only [hcs] at h1
        by_cases hun : st = cstate.unwritten
        · simp only [hun, if_true, sys_write_mem] at h1
          have hp_ag := h p
          split_ifs at h1 with hgt
          · simp only [Option.some.injEq] at h1
            subst h1
            intro q
            by_cases hq : q = p
            · subst hq
              unfold buffer_agrees at *
              simp only [set_client, upd, if_true]
              constructor
              · intro _; omega
              · intro _; exact hp_ag.2 (by omega)
            · have := h q
              simpa [set_client, upd, hq] using this
          · simp only [Option.some.injEq] at h1
            subst h1
            intro q
            by_cases hq : q = p
            · subst hq
              unfold buffer_agrees
              simp [set_client, upd]
            · have := h q
              simpa [set_client, upd, hq] using this
        · simp only [hun, if_false] at h1
          have hw : all_agree w := h
          have hr := all_agree_sys_read w frm MAX_LENGTH rd hw
          have hg : ∀ v : World, all_agree v → all_agree (graceful_exit v frm) :=
            fun v hv => graceful_exit_agrees v frm hv
          split_ifs at h1 <;> simp only [Option.some.injEq] at h1 <;> subst h1 <;>
            first
            | (apply all_agree_set_unwritten
               · omega
               · repeat (first | exact hr | apply hg | apply all_agree_sys_write))
            | (repeat (first | exact hr | apply hg | apply all_agree_sys_write))

theorem all_agree_sys_epoll_ctl (w : World) (e : Int) (op : EpollOp) (fd : Int) (ev : Nat)
    (h : all_agree w) : all_agree (sys_epoll_ctl w e op fd ev).2 :=
  all_agree_of_mem _ w (by simp) h

theorem all_agree_sys_close (w : World) (fd : Int) (h : all_agree w) :
    all_agree (sys_close w fd).2 :=
  all_agree_of_mem _ w (by simp) h

theorem register_client_agrees (w : World) (sock : Int) (h : all_agree w) :
    all_agree (register_client w sock).2 := by
  have hm : ∀ q, buffer_agrees
      ((upd w.client_fd_tuples_mem sock { w.client_fd_tuples_mem sock with
        socket_fd := sock, state := cstate.new, pty_fd := -1, nunwritten := 0 }) q) := by
    intro q
    by_cases hq : q = sock
    · simp [upd, hq, buffer_agrees]
    · simpa [upd, hq] using h q
  unfold register_client
  dsimp only
  split_ifs <;> exact all_agree_sys_epoll_ctl _ _ _ _ _ hm

theorem validate_client_agrees (w : World) (fd : Int) (rd : ReadRes) (wr : WriteRes) (r : Int)
    (w1 : World) (h : all_agree w) (hnew : get_cstate w fd = some cstate.new)
    (h1 : validate_client w fd rd wr = some (r, w1)) :
    all_agree w1 ∧ (r = 0 → get_cstate w1 fd = some cstate.validated) := by
  unfold get_cstate at hnew
  cases hp : w.client_fd_tuples fd with
  | none => simp [hp] at hnew
  | some p =>
    simp only [hp, Option.some.injEq] at hnew
    have hn0 : (w.client_fd_tuples_mem p).nunwritten = 0 := by
      have := (h p).2
      by_contra hne
      have hpos : 0 < (w.client_fd_tuples_mem p).nunwritten := Nat.pos_of_ne_zero hne
      rcases this hpos with h' | h' <;> simp [hnew] at h'
    have hset : all_agree (set_client (sys_read w fd (MAX_LENGTH - 1) rd).2.2 p
        { w.client_fd_tuples_mem p with state := cstate.validated }) := by
      intro q
      by_cases hq : q = p
      · subst hq
        simp [set_client, upd, buffer_agrees, hn0]
      · have := all_agree_sys_read w fd (MAX_LENGTH - 1) rd h q
        simpa [set_client, upd, hq] using this
    have hrm : (sys_read w fd (MAX_LENGTH - 1) rd).2.2.client_fd_tuples_mem =
        w.client_fd_tuples_mem := by cases rd <;> rfl
    have hrt : (sys_read w fd (MAX_LENGTH - 1) rd).2.2.client_fd_tuples =
        w.client_fd_tuples := by cases rd <;> rfl
    unfold validate_client read_client_message at h1
    simp only at h1
    split_ifs at h1 with hle
    · simp only [Option.some.injEq, Prod.mk.injEq] at h1
      obtain ⟨hr, hw⟩ := h1
      subst hw
      subst hr
      exact ⟨all_agree_sys_read w fd _ rd h, by intro h0; simp at h0⟩
    · simp only [hrt, hp, hrm] at h1
      split_ifs at h1 with hs
      · simp only [Option.some.injEq, Prod.mk.injEq] at h1
        obtain ⟨hr, hw⟩ := h1
        subst hw
        subst hr
        exact ⟨all_agree_sys_write _ _ _ _ hset, by intro h0; simp at h0⟩
      · simp only [Option.some.injEq, Prod.mk.injEq] at h1
        obtain ⟨_, hw⟩ := h1
        subst hw
        refine ⟨hset, fun _ => ?_⟩
        simp [get_cstate, set_client, hrt, hp, upd]


theorem all_agree_sys_posix_openpt (w : World) (env : Env) (h : all_agree w) :
    all_agree (sys_posix_openpt w env).2 :=
  all_agree_of_mem _ w (by unfold sys_posix_openpt; split_ifs <;> rfl) h

theorem open_pty_agrees (w : World) (fd : Int) (env : Env) (r : Int) (w1 : World)
    (h : all_agree w) (hval : get_cstate w fd = some cstate.validated)
    (h1 : open_pty w fd env = some (r, w1)) : all_agree w1 := by
  unfold get_cstate at hval
  cases hp : w.client_fd_tuples fd with
  | none => simp [hp] at hval
  | some p =>
    simp only [hp, Option.some.injEq] at hval
    have hn0 : (w.client_fd_tuples_mem p).nunwritten = 0 := by
      have := (h p).2
      by_contra hne
      have hpos : 0 < (w.client_fd_tuples_mem p).nunwritten := Nat.pos_of_ne_zero hne
      rcases this hpos with h' | h' <;> simp [hval] at h'
    have ho := all_agree_sys_posix_openpt w env h
    have hom : (sys_posix_openpt w env).2.client_fd_tuples_mem = w.client_fd_tuples_mem := by
      unfold sys_posix_openpt; split_ifs <;> rfl
    unfold open_pty at h1
    simp only [hp] at h1
    split_ifs at h1 <;> simp only [Option.some.injEq, Prod.mk.injEq] at h1 <;>
      obtain ⟨_, hw⟩ := h1 <;> subst hw
    · exact ho
    · exact all_agree_of_mem _ _ (by simp) ho
    · exact all_agree_sys_epoll_ctl _ _ _ _ _ ho
    · intro q
      by_cases hq : q = p
      · subst hq
        simp [set_client, upd, buffer_agrees, log, hom, hn0]
      · have := h q
        simpa [set_client, upd, hq, log, hom] using this

theorem initiate_handshake_agrees (w : World) (fd : Int) (env : Env) (r : Int) (w1 : World)
    (h : all_agree w) (h1 : initiate_handshake w fd env = some (r, w1)) : all_agree w1 := by
  have hw := all_agree_sys_write w fd CHALLENGE env.wr h
  have ht : all_agree (sys_timerfd_settime (sys_timerfd_create (sys_write w fd CHALLENGE env.wr).2
      env).2 (sys_timerfd_create (sys_write w fd CHALLENGE env.wr).2 env).1 3).2 := by
    apply all_agree_of_mem _ _ _ hw
    unfold sys_timerfd_settime sys_timerfd_create
    split_ifs <;> rfl
  unfold initiate_handshake at h1
  dsimp only at h1
  split_ifs at h1
  · simp only [Option.some.injEq, Prod.mk.injEq] at h1
    obtain ⟨_, hw1⟩ := h1
    subst hw1
    exact hw
  · split at h1
    · simp at h1
    · rename_i p hp
      have hset : all_agree (set_client
          (sys_timerfd_settime (sys_timerfd_create (sys_write w fd CHALLENGE env.wr).2 env).2
            (sys_timerfd_create (sys_write w fd CHALLENGE env.wr).2 env).1 3).2 p
          { (sys_timerfd_settime (sys_timerfd_create (sys_write w fd CHALLENGE env.wr).2 env).2
              (sys_timerfd_create (sys_write w fd CHALLENGE env.wr).2 env).1 3).2.client_fd_tuples_mem p
            with timer_fd := (sys_timerfd_create (sys_write w fd CHALLENGE env.wr).2 env).1 }) := by
        intro q
        by_cases hq : q = p
        · subst hq
          have := ht q
          simpa [set_client, upd, buffer_agrees] using this
        · have := ht q
          simpa [set_client, upd, hq] using this
      split_ifs at h1 <;> simp only [Option.some.injEq, Prod.mk.injEq] at h1 <;>
        obtain ⟨_, hw1⟩ := h1 <;> subst hw1 <;>
        exact all_agree_sys_epoll_ctl _ _ _ _ _ (all_agree_of_mem _ _ rfl hset)

theorem client_connect_agrees (w : World) (env : Env) (w1 : World)
    (h : all_agree w) (h1 : client_connect w env = some w1) : all_agree w1 := by
  have ha : all_agree (sys_accept w env).2 := by
    apply all_agree_of_mem _ _ _ h
    unfold sys_accept
    split_ifs <;> rfl
  have hr := register_client_agrees (sys_accept w env).2 (sys_accept w env).1 ha
  unfold client_connect at h1
  dsimp only at h1
  split_ifs at h1
  · simp only [Option.some.injEq] at h1; subst h1; exact ha
  · simp only [Option.some.injEq] at h1; subst h1; exact ha
  · split at h1
    · simp at h1
    · rename_i rv w2 hih
      have h2 := initiate_handshake_agrees _ _ _ _ _ (all_agree_sys_close _ _ hr) hih
      split_ifs at h1 <;> simp only [Option.some.injEq] at h1 <;> subst h1
      · exact all_agree_sys_close _ _ h2
      · exact h2
  · split at h1
    · simp at h1
    · rename_i rv w2 hih
      have h2 := initiate_handshake_agrees _ _ _ _ _ hr hih
      split_ifs at h1 <;> simp only [Option.some.injEq] at h1 <;> subst h1
      · exact all_agree_sys_close _ _ h2
      · exact h2

theorem handle_io_agrees (w : World) (fd : Int) (env : Env) (w1 : World)
    (h : all_agree w) (h1 : handle_io w fd env = some w1) : all_agree w1 := by
  unfold handle_io at h1
  dsimp only at h1
  split at h1
  · simp at h1
  · rename_i v hd
    have hv : all_agree v := by
      split_ifs at hd with hl
      · exact client_connect_agrees w env v h hd
      · split at hd
        · simp at hd
        · rename_i st hcs
          split_ifs at hd with hnew hterm
          · subst hnew
            split at hd
            · simp at hd
            · rename_i rv wv hval
              have hva := validate_client_agrees w fd env.rd env.wr rv wv h hcs hval
              split_ifs at hd with hrv
              · simp only [Option.some.injEq] at hd; subst hd
                exact graceful_exit_agrees _ _ hva.1
              · split at hd
                · simp at hd
                · rename_i ro w2 hop
                  have h2 := open_pty_agrees wv fd env ro w2 hva.1 (hva.2 (by simpa using hrv)) hop
                  split_ifs at hd <;> simp only [Option.some.injEq] at hd <;> subst hd
                  · exact graceful_exit_agrees _ _ h2
                  · exact h2
          · simp only [Option.some.injEq] at hd; subst hd; exact h
          · exact transfer_data_agrees w fd env.rd env.wr env.nwrite0 v h hd
    split_ifs at h1
    · split at h1
      · simp only [Option.some.injEq] at h1; subst h1; exact hv
      · split_ifs at h1 <;> simp only [Option.some.injEq] at h1 <;> subst h1 <;>
          exact all_agree_sys_epoll_ctl _ _ _ _ _ hv
    · simp only [Option.some.injEq] at h1; subst h1
      exact all_agree_sys_epoll_ctl _ _ _ _ _ hv

theorem boot_agrees : all_agree boot := by
  intro q
  simp [boot, zero_client, buffer_agrees]

theorem w_carry_agrees : all_agree w_carry :=
  transfer_data_agrees w_session 6 (ReadRes.data [65, 66, 67, 68, 69, 70]) (WriteRes.count 2) 0
    w_carry
    (handle_io_agrees w_accepted 6 (answer_env SECRET (WriteRes.count 5)) w_session
      (handle_io_agrees boot 5 accept_env w_accepted boot_agrees rfl) rfl) w_carry_eq

theorem all_bounded_sys_write (w : World) (fd : Int) (buf : List Byte) (wr : WriteRes)
    (h : all_bounded w) : all_bounded (sys_write w fd buf wr).2 :=
  all_bounded_of_mem _ w (by simp) h

theorem all_bounded_sys_read (w : World) (fd : Int) (n : Nat) (rd : ReadRes)
    (h : all_bounded w) : all_bounded (sys_read w fd n rd).2.2 :=
  all_bounded_of_mem _ w (by cases rd <;> rfl) h

theorem all_bounded_sys_epoll_ctl (w : World) (e : Int) (op : EpollOp) (fd : Int) (ev : Nat)
    (h : all_bounded w) : all_bounded (sys_epoll_ctl w e op fd ev).2 :=
  all_bounded_of_mem _ w (by simp) h

theorem all_bounded_sys_close (w : World) (fd : Int) (h : all_bounded w) :
    all_bounded (sys_close w fd).2 :=
  all_bounded_of_mem _ w (by simp) h

/-- Storing a record with the same `nunwritten` keeps the bound. -/
theorem all_bounded_set_same (v : World) (p : Int) (c : client_t)
    (hc : c.nunwritten = (v.client_fd_tuples_mem p).nunwritten) (h : all_bounded v) :
    all_bounded (set_client v p c) :=
  all_bounded_set v p c (by rw [hc]; exact h p) h

theorem validate_client_bounded (w : World) (fd : Int) (rd : ReadRes) (wr : WriteRes) (r : Int)
    (w1 : World) (h : all_bounded w) (h1 : validate_client w fd rd wr = some (r, w1)) :
    all_bounded w1 := by
  have hr := all_bounded_sys_read w fd (MAX_LENGTH - 1) rd h
  unfold validate_client read_client_message at h1
  dsimp only at h1
  split_ifs at h1 with hle
  · simp only [Option.some.injEq, Prod.mk.injEq] at h1
    obtain ⟨_, hw⟩ := h1
    subst hw
    exact hr
  · simp only at h1
    split at h1
    · simp at h1
    · split_ifs at h1 <;> simp only [Option.some.injEq, Prod.mk.injEq] at h1 <;>
        obtain ⟨_, hw⟩ := h1 <;> subst hw
      · exact all_bounded_sys_write _ _ _ _ (all_bounded_set_same _ _ _ rfl hr)
      · exact all_bounded_set_same _ _ _ rfl hr

theorem open_pty_bounded (w : World) (fd : Int) (env : Env) (r : Int) (w1 : World)
    (h : all_bounded w) (h1 : open_pty w fd env = some (r, w1)) : all_bounded w1 := by
  have ho : all_bounded (sys_posix_openpt w env).2 :=
    all_bounded_of_mem _ w (by unfold sys_posix_openpt; split_ifs <;> rfl) h
  unfold open_pty at h1
  dsimp only at h1
  split_ifs at h1
  · simp only [Option.some.injEq, Prod.mk.injEq] at h1
    obtain ⟨_, hw⟩ := h1
    subst hw
    exact ho
  · simp only [Option.some.injEq, Prod.mk.injEq] at h1
    obtain ⟨_, hw⟩ := h1
    subst hw
    exact all_bounded_of_mem _ _ (by simp) ho
  · simp only [Option.some.injEq, Prod.mk.injEq] at h1
    obtain ⟨_, hw⟩ := h1
    subst hw
    exact all_bounded_sys_epoll_ctl _ _ _ _ _ ho
  · split at h1
    · simp at h1
    · simp only [Option.some.injEq, Prod.mk.injEq] at h1
      obtain ⟨_, hw⟩ := h1
      subst hw
      refine all_bounded_of_mem _ _ rfl (all_bounded_set_same _ _ _ rfl
        (all_bounded_set_same _ _ _ rfl (all_bounded_sys_write _ _ _ _
          (all_bounded_of_mem _ _ rfl (all_bounded_sys_epoll_ctl _ _ _ _ _ ho)))))

theorem initiate_handshake_bounded (w : World) (fd : Int) (env : Env) (r : Int) (w1 : World)
    (h : all_bounded w) (h1 : initiate_handshake w fd env = some (r, w1)) : all_bounded w1 := by
  have hw := all_bounded_sys_write w fd CHALLENGE env.wr h
  have ht : all_bounded (sys_timerfd_settime (sys_timerfd_create (sys_write w fd CHALLENGE env.wr).2
      env).2 (sys_timerfd_create (sys_write w fd CHALLENGE env.wr).2 env).1 3).2 := by
    apply all_bounded_of_mem _ _ _ hw
    unfold sys_timerfd_settime sys_timerfd_create
    split_ifs <;> rfl
  unfold initiate_handshake at h1
  dsimp only at h1
  split_ifs at h1
  · simp only [Option.some.injEq, Prod.mk.injEq] at h1
    obtain ⟨_, hw1⟩ := h1
    subst hw1
    exact hw
  · split at h1
    · simp at h1
    · split_ifs at h1 <;> simp only [Option.some.injEq, Prod.mk.injEq] at h1 <;>
        obtain ⟨_, hw1⟩ := h1 <;> subst hw1 <;>
        exact all_bounded_sys_epoll_ctl _ _ _ _ _
          (all_bounded_of_mem _ _ rfl (all_bounded_set_same _ _ _ rfl ht))

theorem client_connect_bounded (w : World) (env : Env) (w1 : World)
    (h : all_bounded w) (h1 : client_connect w env = some w1) : all_bounded w1 := by
  have ha : all_bounded (sys_accept w env).2 := by
    apply all_bounded_of_mem _ _ _ h
    unfold sys_accept
    split_ifs <;> rfl
  have hr := (register_client_bounded (sys_accept w env).2 (sys_accept w env).1 ha).1
  unfold client_connect at h1
  dsimp only at h1
  split_ifs at h1
  · simp only [Option.some.injEq] at h1; subst h1; exact ha
  · simp only [Option.some.injEq] at h1; subst h1; exact ha
  · split at h1
    · simp at h1
    · rename_i rv w2 hih
      have h2 := initiate_handshake_bounded _ _ _ _ _ (all_bounded_sys_close _ _ hr) hih
      split_ifs at h1 <;> simp only [Option.some.injEq] at h1 <;> subst h1
      · exact all_bounded_sys_close _ _ h2
      · exact h2
  · split at h1
    · simp at h1
    · rename_i rv w2 hih
      have h2 := initiate_handshake_bounded _ _ _ _ _ hr hih
      split_ifs at h1 <;> simp only [Option.some.injEq] at h1 <;> subst h1
      · exact all_bounded_sys_close _ _ h2
      · exact h2

/-- When `read` returns data the local `nwrite` is assigned by the `write` that follows,
so the value it held before plays no part. -/
theorem transfer_data_nwrite0_unused (w : World) (frm : Int) (rd : ReadRes) (wr : WriteRes)
    (g : Int) (hpos : (sys_read w frm MAX_LENGTH rd).1 > 0) :
    transfer_data w frm rd wr g = transfer_data w frm rd wr 0 := by
  unfold transfer_data
  simp only [hpos, if_true]

/-- The bound `nunwritten ≤ MAX_LENGTH` is preserved by `transfer_data` when `read`
returns at most `MAX_LENGTH` bytes and the local `nwrite`, where it is read without
having been assigned (`read` returned 0 or -1), is not below -1. -/
theorem transfer_data_bounded_assigned (w : World) (frm : Int) (rd : ReadRes) (wr : WriteRes)
    (g : Int) (w1 : World) (h : all_bounded w)
    (hrd : ∀ bs, rd = ReadRes.data bs → bs.length ≤ MAX_LENGTH)
    (hg : (sys_read w frm MAX_LENGTH rd).1 ≤ 0 → -1 ≤ g)
    (h1 : transfer_data w frm rd wr g = some w1) : all_bounded w1 := by
  by_cases hpos : (sys_read w frm MAX_LENGTH rd).1 > 0
  · rw [transfer_data_nwrite0_unused w frm rd wr g hpos] at h1
    exact transfer_data_bounded w frm rd wr 0 w1 h hrd (by decide) h1
  · exact transfer_data_bounded w frm rd wr g w1 h hrd (hg (by omega)) h1

theorem handle_io_bounded (w : World) (fd : Int) (env : Env) (w1 : World)
    (h : all_bounded w)
    (hrd : ∀ bs, env.rd = ReadRes.data bs → bs.length ≤ MAX_LENGTH)
    (hg : (sys_read w fd MAX_LENGTH env.rd).1 ≤ 0 → -1 ≤ env.nwrite0)
    (h1 : handle_io w fd env = some w1) : all_bounded w1 := by
  unfold handle_io at h1
  dsimp only at h1
  split at h1
  · simp at h1
  · rename_i v hd
    have hv : all_bounded v := by
      split_ifs at hd with hl
      · exact client_connect_bounded w env v h hd
      · split at hd
        · simp at hd
        · rename_i st hcs
          split_ifs at hd with hnew hterm
          · split at hd
            · simp at hd
            · rename_i rv wv hval
              have hva := validate_client_bounded w fd env.rd env.wr rv wv h hval
              split_ifs at hd with hrv
              · simp only [Option.some.injEq] at hd; subst hd
                exact graceful_exit_bounded _ _ hva
              · split at hd
                · simp at hd
                · rename_i ro w2 hop
                  have h2 := open_pty_bounded wv fd env ro w2 hva hop
                  split_ifs at hd <;> simp only [Option.some.injEq] at hd <;> subst hd
                  · exact graceful_exit_bounded _ _ h2
                  · exact h2
          · simp only [Option.some.injEq] at hd; subst hd; exact h
          · exact transfer_data_bounded_assigned w fd env.rd env.wr env.nwrite0 v h hrd hg hd
    split_ifs at h1
    · split at h1
      · simp only [Option.some.injEq] at h1; subst h1; exact hv
      · split_ifs at h1 <;> simp only [Option.some.injEq] at h1 <;> subst h1 <;>
          exact all_bounded_sys_epoll_ctl _ _ _ _ _ hv
    · simp only [Option.some.injEq] at h1; subst h1
      exact all_bounded_sys_epoll_ctl _ _ _ _ _ hv

theorem boot_bounded : all_bounded boot := by
  intro q
  simp [boot, zero_client]

theorem w_session_agrees : all_agree w_session :=
  handle_io_agrees w_accepted 6 (answer_env SECRET (WriteRes.count 5)) w_session
    (handle_io_agrees boot 5 accept_env w_accepted boot_agrees rfl) rfl

theorem w_session_bounded : all_bounded w_session :=
  handle_io_bounded w_accepted 6 (answer_env SECRET (WriteRes.count 5)) w_session
    (handle_io_bounded boot 5 accept_env w_accepted boot_bounded
      (by intro bs hbs; cases hbs) (fun _ => by decide) rfl)
    (by intro bs hbs; cases hbs; decide) (fun _ => by decide) rfl

/-- C6 (amended): suppose every record has `nunwritten ≤ MAX_LENGTH` and satisfies "state
`unwritten` implies `nunwritten > 0`, and `nunwritten > 0` implies state `unwritten` or
`terminated`".  Then both hold again of every record after `register_client`, after
`validate_client` on a `new` client, after `open_pty` on a `validated` client, after
`transfer_data`, after `graceful_exit` and after a whole `handle_io` (whenever these
return), provided `read` returns at most the count requested, `write` returns -1 or a
count of at most `MAX_LENGTH`, and the local `nwrite` of `transfer_data`, where it is
read without having been assigned (`read` returned 0 or -1), is not below -1.  The path
on which a lower value left in `nwrite` makes the code copy past the end of `unwritten`
is left out: there the copy overruns the record and nothing is stated. -/
theorem buffer_agreement_preserved (w : World) (h : all_agree w) (hb : all_bounded w) :
    (∀ sock, all_agree (register_client w sock).2 ∧ all_bounded (register_client w sock).2) ∧
    (∀ fd rd wr r w1, get_cstate w fd = some cstate.new →
      (∀ bs, rd = ReadRes.data bs → bs.length ≤ MAX_LENGTH - 1) →
      validate_client w fd rd wr = some (r, w1) → all_agree w1 ∧ all_bounded w1) ∧
    (∀ fd env r w1, get_cstate w fd = some cstate.validated →
      open_pty w fd env = some (r, w1) → all_agree w1 ∧ all_bounded w1) ∧
    (∀ frm rd wr g w1, (∀ bs, rd = ReadRes.data bs → bs.length ≤ MAX_LENGTH) →
      (∀ k, wr = WriteRes.count k → k ≤ MAX_LENGTH) →
      ((sys_read w frm MAX_LENGTH rd).1 ≤ 0 → -1 ≤ g) →
      transfer_data w frm rd wr g = some w1 → all_agree w1 ∧ all_bounded w1) ∧
    (∀ fd, all_agree (graceful_exit w fd) ∧ all_bounded (graceful_exit w fd)) ∧
    (∀ fd env w1,
      (∀ bs, env.rd = ReadRes.data bs →
        bs.length ≤ if get_cstate w fd = some cstate.new then MAX_LENGTH - 1 else MAX_LENGTH) →
      (∀ k, env.wr = WriteRes.count k → k ≤ MAX_LENGTH) →
      ((sys_read w fd MAX_LENGTH env.rd).1 ≤ 0 → -1 ≤ env.nwrite0) →
      handle_io w fd env = some w1 → all_agree w1 ∧ all_bounded w1) := by
  refine ⟨fun sock => ⟨register_client_agrees w sock h, (register_client_bounded w sock hb).1⟩,
    fun fd rd wr r w1 hnew _ h1 => ⟨(validate_client_agrees w fd rd wr r w1 h hnew h1).1,
      validate_client_bounded w fd rd wr r w1 hb h1⟩,
    fun fd env r w1 hval h1 => ⟨open_pty_agrees w fd env r w1 h hval h1,
      open_pty_bounded w fd env r w1 hb h1⟩,
    fun frm rd wr g w1 hrd _ hg h1 => ⟨transfer_data_agrees w frm rd wr g w1 h h1,
      transfer_data_bounded_assigned w frm rd wr g w1 hb hrd hg h1⟩,
    fun fd => ⟨graceful_exit_agrees w fd h, graceful_exit_bounded w fd hb⟩,
    fun fd env w1 hrd _ hg h1 => ⟨handle_io_agrees w fd env w1 h h1,
      handle_io_bounded w fd env w1 hb ?_ hg h1⟩⟩
  intro bs hbs
  have := hrd bs hbs
  split_ifs at this
  · have h4 : MAX_LENGTH = 4096 := rfl
    omega
  · exact this

/-- Witness for C6 (amended): on the sample session the socket delivers `ABCDEF` and the
PTY accepts two bytes.  `read` returned data, so the `write` assigns `nwrite` and the
-5000 it held before plays no part; the record is `unwritten` with four bytes pending. -/
theorem buffer_agreement_preserved_witness :
    all_agree w_session ∧ all_bounded w_session ∧
    transfer_data w_session 6 (ReadRes.data [65, 66, 67, 68, 69, 70]) (WriteRes.count 2) (-5000) =
      some w_carry ∧
    all_agree w_carry ∧ all_bounded w_carry :=
  ⟨w_session_agrees, w_session_bounded, rfl,
    (buffer_agreement_preserved w_session w_session_agrees w_session_bounded).2.2.2.1 6
      (ReadRes.data [65, 66, 67, 68, 69, 70]) (WriteRes.count 2) (-5000) w_carry
      (by intro bs hbs; cases hbs; decide) (by intro k hk; cases hk; decide)
      (fun hle => absurd hle (by decide)) rfl⟩

/-! ## C7: `terminated` is absorbing -/

/-- C7 (fails on the code): the socket of the session delivers three bytes and the
`write` to the PTY fails with `EPIPE`.  `transfer_data` calls `graceful_exit`, which
sets the record to `terminated`, closes both descriptors and clears both slots; the
rest of the same call then stores the three bytes and sets the state to `unwritten`. -/
theorem transfer_data_overwrites_terminated :
    ((graceful_exit
        (sys_write (sys_read w_session 6 MAX_LENGTH (ReadRes.data [65, 66, 67])).2.2 8
          [65, 66, 67] (WriteRes.err EPIPE)).2 6).client_fd_tuples_mem 6).state
      = cstate.terminated ∧
    (transfer_data w_session 6 (ReadRes.data [65, 66, 67]) (WriteRes.err EPIPE) 0).map
        (fun w => (w.trace.drop w_session.trace.length, w.client_fd_tuples 6,
          w.client_fd_tuples 8, w.open_fds 6, w.open_fds 8,
          (w.client_fd_tuples_mem 6).state, (w.client_fd_tuples_mem 6).nunwritten)) =
      some ([Event.read 6 4096 (ReadRes.data [65, 66, 67]),
             Event.write 8 [65, 66, 67] (WriteRes.err EPIPE),
             Event.epoll_ctl 3 EpollOp.DEL 6 0 0, Event.close 6 0,
             Event.epoll_ctl 3 EpollOp.DEL 8 0 0, Event.close 8 0],
            none, none, false, false, cstate.unwritten, 3) := by
  refine ⟨rfl, rfl⟩

/-! ## C8: partial write in the pump path -/

/-- C8: in the pump path (record neither `terminated` nor `unwritten`, table slots of
`frm` and of the record's socket pointing to the record), when `read` returns the
`nread` bytes `buf` (`1 ≤ nread ≤ 4096`) and `write` accepts `k < nread` of them (a
would-block `write` counting as `k = 0`), `transfer_data` returns with
`nunwritten = nread - k`, `unwritten[0 .. nread-k) = buf[k .. nread)` and state
`unwritten`. -/
theorem transfer_data_partial_write (w : World) (frm p : Int) (buf : List Byte) (wr : WriteRes)
    (k : Nat) (g : Int)
    (hp : w.client_fd_tuples frm = some p)
    (halias : w.client_fd_tuples (w.client_fd_tuples_mem p).socket_fd = some p)
    (hst1 : (w.client_fd_tuples_mem p).state ≠ cstate.terminated)
    (hst2 : (w.client_fd_tuples_mem p).state ≠ cstate.unwritten)
    (hbuf1 : 1 ≤ buf.length) (_hbuf2 : buf.length ≤ MAX_LENGTH)
    (hwr : wr = WriteRes.count k ∨ (wr = WriteRes.err EAGAIN ∧ k = 0))
    (hk : k < buf.length) :
    ∃ w1, transfer_data w frm (ReadRes.data buf) wr g = some w1 ∧
      (w1.client_fd_tuples_mem p).nunwritten = buf.length - k ∧
      (w1.client_fd_tuples_mem p).unwritten.take (buf.length - k) = buf.drop k ∧
      (w1.client_fd_tuples_mem p).state = cstate.unwritten := by
  have hpos : (0 : Int) < (buf.length : Int) := by omega
  have hne1 : ¬ ((buf.length : Int) = -1) := by omega
  have hne0 : ¬ ((buf.length : Int) = 0) := by omega
  have hne0' : ¬ (buf = []) := by
    intro h; simp [h] at hbuf1
  have hlt : (k : Int) < (buf.length : Int) := by omega
  have hk1 : ¬ ((k : Int) = -1) := by omega
  have htn : ((buf.length : Int) - (k : Int)).toNat = buf.length - k := by omega
  rcases hwr with hwr | ⟨hwr, hk0⟩
  · subst hwr
    unfold transfer_data
    simp only [hp, halias, get_cstate, hst1, hst2, sys_read, sys_write, if_false, hpos, if_true,
      hne1, hne0, hk1, false_and, hlt, gt_iff_lt, htn]
    refine ⟨_, rfl, ?_⟩
    simp [set_client, upd, memcpy, ptr_add]
  · subst hwr
    subst hk0
    unfold transfer_data
    simp only [hp, halias, get_cstate, hst1, hst2, sys_read, sys_write, if_false, hpos, if_true,
      hne1, hne0, false_and, gt_iff_lt, log, EAGAIN, EWOULDBLOCK, ne_eq, not_true_eq_false,
      and_false, and_self]
    simp [set_client, upd, memcpy, ptr_add, hpos, hne0']


/-- Witness for C8 (the example of the code comment): buffer `ABCDEF`, read 6,
write 2 gives `unwritten = CDEF`, `nunwritten = 4`. -/
theorem transfer_data_partial_write_witness :
    ∃ w1, transfer_data w_session 6 (ReadRes.data [65, 66, 67, 68, 69, 70]) (WriteRes.count 2) 0 =
        some w1 ∧
      (w1.client_fd_tuples_mem 6).nunwritten = [65, 66, 67, 68, 69, 70].length - 2 ∧
      (w1.client_fd_tuples_mem 6).unwritten.take ([65, 66, 67, 68, 69, 70].length - 2) =
        [65, 66, 67, 68, 69, 70].drop 2 ∧
      (w1.client_fd_tuples_mem 6).state = cstate.unwritten :=
  transfer_data_partial_write w_session 6 6 [65, 66, 67, 68, 69, 70] (WriteRes.count 2) 2 0
    rfl rfl (by decide) (by decide) (by decide) (by decide) (Or.inl rfl) (by decide)

/-! ## C9: partial drain -/

theorem toSizeT_natCast (k : Nat) (hk : k < 2 ^ 64) : toSizeT (k : Int) = k := by
  unfold toSizeT
  have h : ((k : Int) % (2 ^ 64 : Int)) = (k : Int) := by
    apply Int.emod_eq_of_lt <;> omega
  rw [h]
  simp

/-- C9: for a record in state `unwritten` with `n = nunwritten` bytes pending
(`n ≤ 4096`, the array being 4096 bytes) and a `write` that accepts `k` of them,
`0 < k < n`, `transfer_data` returns with `nunwritten = n - k`, the new
`unwritten[0 .. n-k)` equal to the old `unwritten[k .. n)`, state still `unwritten`,
and the `write` of the carry-over as its only system call (no `read`). -/
theorem transfer_data_partial_drain (w : World) (frm p : Int) (rd : ReadRes) (k : Nat) (g : Int)
    (hp : w.client_fd_tuples frm = some p)
    (halias : w.client_fd_tuples (w.client_fd_tuples_mem p).socket_fd = some p)
    (hst : (w.client_fd_tuples_mem p).state = cstate.unwritten)
    (hlen : (w.client_fd_tuples_mem p).unwritten.length = MAX_LENGTH)
    (hn : (w.client_fd_tuples_mem p).nunwritten ≤ MAX_LENGTH)
    (_hk0 : 0 < k) (hk : k < (w.client_fd_tuples_mem p).nunwritten) :
    ∃ w1, transfer_data w frm rd (WriteRes.count k) g = some w1 ∧
      (w1.client_fd_tuples_mem p).nunwritten = (w.client_fd_tuples_mem p).nunwritten - k ∧
      (w1.client_fd_tuples_mem p).unwritten.take ((w.client_fd_tuples_mem p).nunwritten - k) =
        ((w.client_fd_tuples_mem p).unwritten.drop k).take
          ((w.client_fd_tuples_mem p).nunwritten - k) ∧
      (w1.client_fd_tuples_mem p).state = cstate.unwritten ∧
      w1.trace = w.trace ++
        [Event.write
          (if frm = (w.client_fd_tuples_mem p).pty_fd then (w.client_fd_tuples_mem p).socket_fd
            else (w.client_fd_tuples_mem p).pty_fd)
          ((w.client_fd_tuples_mem p).unwritten.take (w.client_fd_tuples_mem p).nunwritten)
          (WriteRes.count k)] := by
  have hk64 : k < 2 ^ 64 := by
    have : MAX_LENGTH = 4096 := rfl
    omega
  have hts := toSizeT_natCast k hk64
  have hne : (w.client_fd_tuples_mem p).state ≠ cstate.terminated := by simp [hst]
  unfold transfer_data
  simp only [hp, halias, get_cstate, hne, hst, sys_write, if_false, if_true, log, hts, hk,
    gt_iff_lt]
  refine ⟨_, rfl, ?_⟩
  have hle : (w.client_fd_tuples_mem p).nunwritten - k ≤
      ((w.client_fd_tuples_mem p).unwritten.drop k).length := by
    simp only [List.length_drop, hlen]
    omega
  have hle2 : (w.client_fd_tuples_mem p).nunwritten - k ≤
      (((w.client_fd_tuples_mem p).unwritten.drop k).take
        ((w.client_fd_tuples_mem p).nunwritten - k)).length := by
    rw [List.length_take]
    exact le_min le_rfl hle
  simp [set_client, upd, memcpy, ptr_add, hst, List.take_append_of_le_length hle2, List.take_take]


theorem w_carry_buffer :
    (w_carry.client_fd_tuples_mem 6).unwritten = [67, 68, 69, 70] ++ List.replicate 4092 0 := by
  rfl

/-- Witness for C9: the sample session with `CDEF` pending; the PTY accepts one byte. -/
theorem transfer_data_partial_drain_witness :
    ∃ w1, transfer_data w_carry 6 (ReadRes.err EAGAIN) (WriteRes.count 1) 0 = some w1 ∧
      (w1.client_fd_tuples_mem 6).nunwritten = (w_carry.client_fd_tuples_mem 6).nunwritten - 1 ∧
      (w1.client_fd_tuples_mem 6).unwritten.take ((w_carry.client_fd_tuples_mem 6).nunwritten - 1) =
        ((w_carry.client_fd_tuples_mem 6).unwritten.drop 1).take
          ((w_carry.client_fd_tuples_mem 6).nunwritten - 1) ∧
      (w1.client_fd_tuples_mem 6).state = cstate.unwritten ∧
      w1.trace = w_carry.trace ++
        [Event.write
          (if (6 : Int) = (w_carry.client_fd_tuples_mem 6).pty_fd
            then (w_carry.client_fd_tuples_mem 6).socket_fd
            else (w_carry.client_fd_tuples_mem 6).pty_fd)
          ((w_carry.client_fd_tuples_mem 6).unwritten.take (w_carry.client_fd_tuples_mem 6).nunwritten)
          (WriteRes.count 1)] :=
  transfer_data_partial_drain w_carry 6 6 (ReadRes.err EAGAIN) 1 0 rfl rfl rfl
    (by rw [w_carry_buffer, List.length_append, List.length_replicate]; rfl) (by decide) (by decide) (by decide)

/-! ## C10: would-block while draining -/

theorem toSizeT_neg_one : toSizeT (-1) = 2 ^ 64 - 1 := by decide

/-- The drain branch on any failed `write` (would-block or hard error alike): the
carry-over is discarded and the record becomes `established`; `graceful_exit` is not
called. -/
theorem transfer_data_drain_write_error (w : World) (frm p : Int) (rd : ReadRes) (e g : Int)
    (hp : w.client_fd_tuples frm = some p)
    (halias : w.client_fd_tuples (w.client_fd_tuples_mem p).socket_fd = some p)
    (hst : (w.client_fd_tuples_mem p).state = cstate.unwritten)
    (hn : (w.client_fd_tuples_mem p).nunwritten ≤ MAX_LENGTH) :
    transfer_data w frm rd (WriteRes.err e) g =
      some (set_client
        (sys_write w
          (if frm = (w.client_fd_tuples_mem p).pty_fd then (w.client_fd_tuples_mem p).socket_fd
            else (w.client_fd_tuples_mem p).pty_fd)
          ((w.client_fd_tuples_mem p).unwritten.take (w.client_fd_tuples_mem p).nunwritten)
          (WriteRes.err e)).2 p
        { w.client_fd_tuples_mem p with nunwritten := 0, state := cstate.established }) := by
  have hne : (w.client_fd_tuples_mem p).state ≠ cstate.terminated := by simp [hst]
  have hnot : ¬ ((w.client_fd_tuples_mem p).nunwritten > toSizeT (-1)) := by
    rw [toSizeT_neg_one]
    have : MAX_LENGTH = 4096 := rfl
    omega
  unfold transfer_data
  simp only [hp, halias, get_cstate, hne, hst, if_false, if_true, sys_write, log, hnot]
  simp

/-- C10 (fails on the code): the record is `unwritten` with `CDEF` pending and the
`write` of the carry-over returns -1 with `EAGAIN`.  In `nunwritten > nwrite` the -1 is
converted to `size_t`, the test fails, and the call sets `nunwritten = 0` and state
`established`: the pending bytes are dropped.  No `read` is issued. -/
theorem transfer_data_drain_would_block_resets :
    (w_carry.client_fd_tuples_mem 6).state = cstate.unwritten ∧
    (w_carry.client_fd_tuples_mem 6).nunwritten = 4 ∧
    (transfer_data w_carry 6 (ReadRes.err EAGAIN) (WriteRes.err EAGAIN) 0).map
        (fun w => (w.trace.drop w_carry.trace.length,
          (w.client_fd_tuples_mem 6).state, (w.client_fd_tuples_mem 6).nunwritten)) =
      some ([Event.write 8 [67, 68, 69, 70] (WriteRes.err EAGAIN)], cstate.established, 0) := by
  refine ⟨rfl, rfl, rfl⟩

/-! ## C11: hard write error while draining -/

/-- C11 (fails on the code): the record is `unwritten` with `CDEF` pending and the `write`
of the carry-over returns -1 with `EPIPE`, a hard error.  `transfer_data` issues that
`write` and nothing else: no `close`, no `epoll_ctl`; the record becomes `established`
with `nunwritten = 0`, both descriptors stay open and both table slots stay set. -/
theorem transfer_data_drain_hard_error_continues :
    (w_carry.client_fd_tuples_mem 6).state = cstate.unwritten ∧
    (transfer_data w_carry 6 (ReadRes.err EAGAIN) (WriteRes.err EPIPE) 0).map
        (fun w => (w.trace.drop w_carry.trace.length,
          (w.client_fd_tuples_mem 6).state, (w.client_fd_tuples_mem 6).nunwritten,
          w.client_fd_tuples 6, w.client_fd_tuples 8, w.open_fds 6, w.open_fds 8)) =
      some ([Event.write 8 [67, 68, 69, 70] (WriteRes.err EPIPE)],
        cstate.established, 0, some 6, some 6, true, true) := by
  refine ⟨rfl, rfl⟩

/-! ## C12: `graceful_exit` twice -/

theorem same_state_refl (w : World) : same_state w w :=
  ⟨rfl, rfl, rfl, rfl, rfl, rfl, rfl, rfl, rfl⟩

theorem same_state_trans (a b c : World) (h1 : same_state a b) (h2 : same_state b c) :
    same_state a c := by
  obtain ⟨a1, a2, a3, a4, a5, a6, a7, a8, a9⟩ := h1
  obtain ⟨b1, b2, b3, b4, b5, b6, b7, b8, b9⟩ := h2
  exact ⟨b1.trans a1, b2.trans a2, b3.trans a3, b4.trans a4, b5.trans a5, b6.trans a6,
    b7.trans a7, b8.trans a8, b9.trans a9⟩

theorem del_noop_same (w v : World) (e fd : Int) (h : same_state w v) (hd : del_noop w e fd) :
    del_noop v e fd := by
  obtain ⟨_, _, _, h4, h5, _, h7, h8, h9⟩ := h
  unfold del_noop at *
  rw [h4, h5, h7, h8, h9]
  exact hd

theorem sys_epoll_ctl_del_noop (w : World) (e fd : Int) (h : del_noop w e fd) :
    same_state w (sys_epoll_ctl w e EpollOp.DEL fd 0).2 ∧
      (sys_epoll_ctl w e EpollOp.DEL fd 0).2.trace =
        w.trace ++ [Event.epoll_ctl e EpollOp.DEL fd 0 (-1)] := by
  unfold del_noop at h
  unfold sys_epoll_ctl same_state
  by_cases ho : w.open_fds fd = true
  · by_cases h1 : e = w.epoll_fd
    · have hs : w.epoll_set fd = none := by
        rcases h with h | h | h | h
        · exact absurd ho h
        · exact h.2
        · exact absurd h1 h.1
        · exact absurd h1 h.1
      subst h1
      simp [ho, epoll_apply, hs, log]
    · by_cases h2 : e = w.t_epoll_fd
      · have hs : w.t_epoll_set fd = none := by
          rcases h with h | h | h | h
          · exact absurd ho h
          · exact absurd h.1 h1
          · exact h.2.2
          · exact absurd h2 h.2
        subst h2
        simp [ho, h1, epoll_apply, hs, log]
      · simp [ho, h1, h2, log]
  · simp [ho, log]

theorem epoll_apply_del_none (s : Int → Option Nat) (fd : Int) (ev : Nat) (h : s fd = none) :
    epoll_apply s EpollOp.DEL fd ev = Except.error ENOENT := by
  simp [epoll_apply, h]

theorem epoll_apply_del_some (s : Int → Option Nat) (fd : Int) (ev m : Nat) (h : s fd = some m) :
    epoll_apply s EpollOp.DEL fd ev = Except.ok (upd s fd none) := by
  simp [epoll_apply, h]

theorem sys_epoll_ctl_del_twice (w : World) (e fd : Int) :
    del_noop (sys_epoll_ctl w e EpollOp.DEL fd 0).2 e fd := by
  unfold del_noop
  by_cases ho : w.open_fds fd = true
  · by_cases h1 : e = w.epoll_fd
    · right; left
      subst h1
      refine ⟨by simp, ?_⟩
      unfold sys_epoll_ctl
      simp only [ho, ne_eq, not_true_eq_false, if_false, if_true]
      cases hs : w.epoll_set fd with
      | none => simp [epoll_apply_del_none _ _ _ hs, log, hs]
      | some m => simp [epoll_apply_del_some _ _ _ m hs, log, upd]
    · by_cases h2 : e = w.t_epoll_fd
      · right; right; left
        subst h2
        refine ⟨by simpa using h1, by simp, ?_⟩
        unfold sys_epoll_ctl
        simp only [ho, h1, ne_eq, not_true_eq_false, if_false, if_true]
        cases hs : w.t_epoll_set fd with
        | none => simp [epoll_apply_del_none _ _ _ hs, log, hs]
        | some m => simp [epoll_apply_del_some _ _ _ m hs, log, upd]
      · right; right; right
        exact ⟨by simpa using h1, by simpa using h2⟩
  · left
    simpa using ho

theorem sys_close_closed (w : World) (fd : Int) (h : w.open_fds fd ≠ true) :
    same_state w (sys_close w fd).2 ∧ (sys_close w fd).1 = -1 := by
  unfold sys_close same_state
  simp [h, log]

theorem close_and_clear_closed_same (w : World) (fd : Int) (h : w.open_fds fd ≠ true) :
    same_state w (close_and_clear w fd) ∧
      (close_and_clear w fd).trace = w.trace ++ [Event.close fd (-1)] := by
  have hc := sys_close_closed w fd h
  unfold close_and_clear
  simp only [hc.2, ne_eq, not_true_eq_false, if_false]
  exact ⟨hc.1, by simp [hc.2]⟩

theorem close_and_clear_not_open (w : World) (fd : Int) :
    (close_and_clear w fd).open_fds fd ≠ true := by
  unfold close_and_clear sys_close
  by_cases ho : w.open_fds fd = true
  · simp [ho, log, upd]
  · simp [ho, log]

theorem close_and_clear_keeps_closed (w : World) (fd x : Int) (h : w.open_fds x ≠ true) :
    (close_and_clear w fd).open_fds x ≠ true := by
  have := close_and_clear_closed w fd x (by simpa using h)
  simp [this]

theorem close_and_clear_del_noop (w : World) (x e fd : Int) (h : del_noop w e fd) :
    del_noop (close_and_clear w x) e fd := by
  unfold del_noop at *
  have hfd : (close_and_clear w x).epoll_fd = w.epoll_fd := by simp
  have htfd : (close_and_clear w x).t_epoll_fd = w.t_epoll_fd := by
    unfold close_and_clear
    split_ifs <;> simp
  have hes : w.epoll_set fd = none → (close_and_clear w x).epoll_set fd = none := by
    intro hn
    unfold close_and_clear sys_close
    split_ifs <;> simp_all [log, upd]
  have hts : w.t_epoll_set fd = none → (close_and_clear w x).t_epoll_set fd = none := by
    intro hn
    unfold close_and_clear sys_close
    split_ifs <;> simp_all [log, upd]
  rw [hfd, htfd]
  rcases h with h | h | h | h
  · exact Or.inl (close_and_clear_keeps_closed w x fd h)
  · exact Or.inr (Or.inl ⟨h.1, hes h.2⟩)
  · exact Or.inr (Or.inr (Or.inl ⟨h.1, h.2.1, hts h.2.2⟩))
  · exact Or.inr (Or.inr (Or.inr h))

theorem changes_nothing_refl (w : World) : changes_nothing w w :=
  ⟨same_state_refl w, [], by simp, by simp⟩

theorem changes_nothing_trans (a b c : World) (h1 : changes_nothing a b)
    (h2 : changes_nothing b c) : changes_nothing a c := by
  obtain ⟨s1, t1, ht1, hc1⟩ := h1
  obtain ⟨s2, t2, ht2, hc2⟩ := h2
  refine ⟨same_state_trans a b c s1 s2, t1 ++ t2, by rw [ht2, ht1, List.append_assoc], ?_⟩
  intro e he
  rcases List.mem_append.mp he with h | h
  · exact hc1 e h
  · exact hc2 e h

theorem changes_nothing_del (w : World) (e fd : Int) (h : del_noop w e fd) :
    changes_nothing w (sys_epoll_ctl w e EpollOp.DEL fd 0).2 := by
  obtain ⟨hs, ht⟩ := sys_epoll_ctl_del_noop w e fd h
  exact ⟨hs, _, ht, by simp [Event.is_closing]⟩

theorem changes_nothing_close (w : World) (fd : Int) (h : w.open_fds fd ≠ true) :
    changes_nothing w (close_and_clear w fd) := by
  obtain ⟨hs, ht⟩ := close_and_clear_closed_same w fd h
  exact ⟨hs, _, ht, by simp [Event.is_closing]⟩

theorem changes_nothing_open (w v : World) (fd : Int) (h : changes_nothing w v)
    (ho : w.open_fds fd ≠ true) : v.open_fds fd ≠ true := by
  obtain ⟨⟨_, _, _, _, _, _, h7, _, _⟩, _⟩ := h
  rw [h7]; exact ho

@[simp] theorem close_and_clear_t_epoll_fd (w : World) (fd : Int) :
    (close_and_clear w fd).t_epoll_fd = w.t_epoll_fd := by
  unfold close_and_clear
  split_ifs <;> simp

@[simp] theorem graceful_exit_t_epoll_fd (w : World) (fd : Int) :
    (graceful_exit w fd).t_epoll_fd = w.t_epoll_fd := by
  cases hp : w.client_fd_tuples fd with
  | none => rw [graceful_exit_null w fd hp]
  | some p =>
    rw [graceful_exit_eq w fd p hp]
    split_ifs <;> simp [set_client]

/-- `graceful_exit` only clears table slots. -/
theorem graceful_exit_tuples_sub (w : World) (fd x q : Int)
    (h : (graceful_exit w fd).client_fd_tuples x = some q) : w.client_fd_tuples x = some q := by
  by_contra hne
  have hclear : ∀ (v : World) (y : Int), v.client_fd_tuples x ≠ some q →
      (close_and_clear v y).client_fd_tuples x ≠ some q := by
    intro v y hv
    unfold close_and_clear
    split_ifs
    · by_cases hxy : x = y
      · simp [upd, hxy]
      · simpa [upd, hxy] using hv
    · simpa using hv
  cases hp : w.client_fd_tuples fd with
  | none =>
    rw [graceful_exit_null w fd hp] at h
    exact hne h
  | some p =>
    rw [graceful_exit_eq w fd p hp] at h
    split_ifs at h
    · exact hclear _ _ (by simpa using hne) h
    · exact hclear _ _ (by simpa using hclear _ _ (by simpa [set_client] using hne)) h

/-- A second `graceful_exit` on the same descriptor changes nothing. -/
theorem graceful_exit_again (w : World) (fd : Int) :
    changes_nothing (graceful_exit w fd) (graceful_exit (graceful_exit w fd) fd) := by
  cases hp : w.client_fd_tuples fd with
  | none =>
    rw [graceful_exit_null w fd hp, graceful_exit_null w fd hp]
    exact changes_nothing_refl w
  | some p =>
    cases hvp : (graceful_exit w fd).client_fd_tuples fd with
    | none =>
      rw [graceful_exit_null (graceful_exit w fd) fd hvp]
      exact changes_nothing_refl _
    | some p2 =>
      have hp2 : p2 = p := by
        have := graceful_exit_tuples_sub w fd fd p2 hvp
        rw [hp] at this
        exact (Option.some.inj this).symm
      subst hp2
      rw [graceful_exit_eq (graceful_exit w fd) fd p2 hvp]
      have hv := graceful_exit_eq w fd p2 hp
      by_cases hnew : (w.client_fd_tuples_mem p2).state = cstate.new
      · rw [if_pos hnew] at hv
        have hmem : (graceful_exit w fd).client_fd_tuples_mem = w.client_fd_tuples_mem := by
          rw [hv]; simp
        have hsock : (graceful_exit w fd).open_fds (w.client_fd_tuples_mem p2).socket_fd ≠ true := by
          rw [hv]; exact close_and_clear_not_open _ _
        have htimer : del_noop (graceful_exit w fd) w.t_epoll_fd
            (w.client_fd_tuples_mem p2).timer_fd := by
          rw [hv]
          exact close_and_clear_del_noop _ _ _ _ (sys_epoll_ctl_del_twice _ _ _)
        simp only [hmem, hnew, if_true, graceful_exit_epoll_fd, graceful_exit_t_epoll_fd]
        have s1 := changes_nothing_del (graceful_exit w fd) w.epoll_fd
          (w.client_fd_tuples_mem p2).socket_fd (Or.inl hsock)
        have s2 := changes_nothing_del _ w.t_epoll_fd (w.client_fd_tuples_mem p2).timer_fd
          (del_noop_same _ _ _ _ s1.1 htimer)
        have s12 := changes_nothing_trans _ _ _ s1 s2
        have s3 := changes_nothing_close _ (w.client_fd_tuples_mem p2).socket_fd
          (changes_nothing_open _ _ _ s12 hsock)
        exact changes_nothing_trans _ _ _ s12 s3
      · rw [if_neg hnew] at hv
        have hrec : (graceful_exit w fd).client_fd_tuples_mem p2 =
            { w.client_fd_tuples_mem p2 with state := cstate.terminated } := by
          rw [hv]; simp [set_client, upd]
        have hsock : (graceful_exit w fd).open_fds (w.client_fd_tuples_mem p2).socket_fd ≠ true := by
          rw [hv]
          apply close_and_clear_keeps_closed
          simp only [sys_epoll_ctl_open]
          exact close_and_clear_not_open _ _
        have hpty : (graceful_exit w fd).open_fds (w.client_fd_tuples_mem p2).pty_fd ≠ true := by
          rw [hv]; exact close_and_clear_not_open _ _
        have s0 : changes_nothing (graceful_exit w fd)
            (set_client (graceful_exit w fd) p2
              { w.client_fd_tuples_mem p2 with state := cstate.terminated }) := by
          refine ⟨⟨rfl, ?_, rfl, rfl, rfl, rfl, rfl, rfl, rfl⟩, [], by simp [set_client], by simp⟩
          funext q
          by_cases hq : q = p2
          · subst hq; simp [set_client, upd, hrec]
          · simp [set_client, upd, hq]
        simp only [hrec, graceful_exit_epoll_fd]
        rw [if_neg (by simp)]
        have s1 := changes_nothing_del _ w.epoll_fd (w.client_fd_tuples_mem p2).socket_fd
          (Or.inl (changes_nothing_open _ _ _ s0 hsock))
        have s01 := changes_nothing_trans _ _ _ s0 s1
        have s2 := changes_nothing_close _ (w.client_fd_tuples_mem p2).socket_fd
          (changes_nothing_open _ _ _ s01 hsock)
        have s02 := changes_nothing_trans _ _ _ s01 s2
        have s3 := changes_nothing_del _ w.epoll_fd (w.client_fd_tuples_mem p2).pty_fd
          (Or.inl (changes_nothing_open _ _ _ s02 hpty))
        have s03 := changes_nothing_trans _ _ _ s02 s3
        have s4 := changes_nothing_close _ (w.client_fd_tuples_mem p2).pty_fd
          (changes_nothing_open _ _ _ s03 hpty)
        exact changes_nothing_trans _ _ _ s03 s4

/-- C12: for every world and every descriptor `fd`, calling `graceful_exit fd` a second
time right after the first leaves the client table, the records, the set of open
descriptors and both epoll interest lists as the first call left them; the calls the
second one issues hold no successful `close` (`close` succeeding exactly on open
descriptors). -/
theorem graceful_exit_idempotent (w : World) (fd : Int) :
    (graceful_exit (graceful_exit w fd) fd).client_fd_tuples =
        (graceful_exit w fd).client_fd_tuples ∧
    (graceful_exit (graceful_exit w fd) fd).client_fd_tuples_mem =
        (graceful_exit w fd).client_fd_tuples_mem ∧
    (graceful_exit (graceful_exit w fd) fd).open_fds = (graceful_exit w fd).open_fds ∧
    (graceful_exit (graceful_exit w fd) fd).epoll_set = (graceful_exit w fd).epoll_set ∧
    (graceful_exit (graceful_exit w fd) fd).t_epoll_set = (graceful_exit w fd).t_epoll_set ∧
    ∃ t, (graceful_exit (graceful_exit w fd) fd).trace = (graceful_exit w fd).trace ++ t ∧
      ∀ e ∈ t, Event.is_closing e = false := by
  obtain ⟨⟨h1, h2, _, _, _, _, h7, h8, h9⟩, ht⟩ := graceful_exit_again w fd
  exact ⟨h1, h2, h7, h8, h9, ht⟩

/-! ## C13: termination of a `new` client -/

/-- C13 (fails on the code): client 6 is `new` with handshake timer 7 and its `read`
returns 0 (the response could not be read).  `handle_io` calls `graceful_exit`, which
unregisters socket and timer and closes the socket, but issues no `close` on the
timer: descriptor 7 stays open.  On the timer-expiry path the caller closes it before
calling `graceful_exit`. -/
theorem graceful_exit_new_leaves_timer_open :
    (w_accepted.client_fd_tuples_mem 6).state = cstate.new ∧
    (w_accepted.client_fd_tuples_mem 6).timer_fd = 7 ∧
    (handle_io w_accepted 6 eof_env).map
        (fun w => (w.trace.drop w_accepted.trace.length, w.client_fd_tuples 6, w.open_fds 6,
          w.epoll_set 6, w.t_epoll_set 7, w.open_fds 7)) =
      some ([Event.read 6 4095 (ReadRes.data []),
             Event.epoll_ctl 3 EpollOp.DEL 6 0 0,
             Event.epoll_ctl 4 EpollOp.DEL 7 0 0,
             Event.close 6 0],
            none, false, none, none, true) ∧
    (graceful_exit w_accepted 6).open_fds 7 = true ∧
    (timer_event w_accepted 7).open_fds 7 = false := by
  refine ⟨rfl, rfl, rfl, rfl, rfl⟩

/-! ## C14: the handshake timer after validation -/

/-- C14 (fails on the code): after the successful handshake of client 6 its record is
`established` while its handshake timer, descriptor 7, is still open and still
registered, armed, in the timer set; the handshake issued no `close` at all. -/
theorem handshake_leaves_timer_registered :
    (w_session.client_fd_tuples_mem 6).state = cstate.established ∧
    (w_session.client_fd_tuples_mem 6).timer_fd = 7 ∧
    w_session.open_fds 7 = true ∧
    w_session.t_epoll_set 7 = some (EPOLLONESHOT ||| EPOLLIN ||| EPOLLET) ∧
    armed (EPOLLONESHOT ||| EPOLLIN ||| EPOLLET) = true ∧
    w_session.trace.filter Event.is_closing = [] := by
  refine ⟨rfl, rfl, rfl, rfl, by decide, rfl⟩

/-! ## C15: hang-up events -/

/-- C15 (as stated, fails): the main set reports `EPOLLIN | EPOLLHUP` on the socket of
the sample session.  `epoll_listener` hands the descriptor to the worker pool and does
not call `graceful_exit`: the world is unchanged, the slot of descriptor 6 is still
set (`graceful_exit` would have cleared it). -/
theorem listener_event_hangup_with_input_queued :
    (EPOLLIN ||| EPOLLHUP) &&& (EPOLLHUP ||| EPOLLRDHUP ||| EPOLLERR) ≠ 0 ∧
    listener_event (w_session, []) (6, EPOLLIN ||| EPOLLHUP) [] = (w_session, [6]) ∧
    w_session.client_fd_tuples 6 = some 6 ∧
    (graceful_exit w_session 6).client_fd_tuples 6 = none := by
  refine ⟨by decide, rfl, rfl, rfl⟩

/-- C15 (amended): for every event reported on a descriptor `fd`, if its mask holds
`EPOLLHUP`, `EPOLLRDHUP` or `EPOLLERR` and neither `EPOLLIN` nor `EPOLLOUT`, then
`epoll_listener` calls `graceful_exit fd`; if its mask holds `EPOLLIN` or `EPOLLOUT`
(whatever else it holds) and `fd` is not the timer-set descriptor, then `fd` is queued
for the worker pool and `graceful_exit` is not called. -/
theorem listener_event_hangup (s : World × List Int) (fd : Int) (events : Nat)
    (t_ready : List (Int × Nat)) :
    (events &&& (EPOLLIN ||| EPOLLOUT) = 0 →
      events &&& (EPOLLHUP ||| EPOLLRDHUP ||| EPOLLERR) ≠ 0 →
      listener_event s (fd, events) t_ready = (graceful_exit s.1 fd, s.2)) ∧
    (events &&& (EPOLLIN ||| EPOLLOUT) ≠ 0 → fd ≠ s.1.t_epoll_fd →
      listener_event s (fd, events) t_ready = (s.1, tpool_add_task s.2 fd)) := by
  constructor
  · intro h1 h2
    simp [listener_event, h1, h2]
  · intro h1 h2
    simp [listener_event, h1, h2]

/-- Witness for C15 (amended): `EPOLLHUP` alone on the socket of the sample session. -/
theorem listener_event_hangup_witness :
    listener_event (w_session, []) (6, EPOLLHUP) [] = (graceful_exit w_session 6, []) :=
  (listener_event_hangup (w_session, []) 6 EPOLLHUP []).1 (by decide) (by decide)

/-! ## C16: the rearm rule -/

theorem no_mod_refl (w : World) : no_mod_since w w :=
  ⟨rfl, rfl, [], by simp, by simp⟩

theorem no_mod_of_eq (w v v1 : World) (ht : v1.trace = v.trace) (he : v1.epoll_fd = v.epoll_fd)
    (hl : v1.listen_fd = v.listen_fd) (h : no_mod_since w v) : no_mod_since w v1 := by
  obtain ⟨h1, h2, t, h3, h4⟩ := h
  exact ⟨he.trans h1, hl.trans h2, t, ht.trans h3, h4⟩

theorem no_mod_step (w v v1 : World) (e : Event) (ht : v1.trace = v.trace ++ [e])
    (hm : Event.is_mod e = false) (he : v1.epoll_fd = v.epoll_fd)
    (hl : v1.listen_fd = v.listen_fd) (h : no_mod_since w v) : no_mod_since w v1 := by
  obtain ⟨h1, h2, t, h3, h4⟩ := h
  refine ⟨he.trans h1, hl.trans h2, t ++ [e], by rw [ht, h3, List.append_assoc], ?_⟩
  intro x hx
  rcases List.mem_append.mp hx with hx | hx
  · exact h4 x hx
  · simp at hx; rw [hx]; exact hm

theorem no_mod_log (w v : World) (e : Event) (hm : Event.is_mod e = false)
    (h : no_mod_since w v) : no_mod_since w (log v e) :=
  no_mod_step w v _ e rfl hm rfl rfl h

theorem no_mod_write (w v : World) (fd : Int) (buf : List Byte) (wr : WriteRes)
    (h : no_mod_since w v) : no_mod_since w (sys_write v fd buf wr).2 :=
  no_mod_step w v _ _ (sys_write_trace v fd buf wr) rfl (by simp) (by simp) h

theorem no_mod_read (w v : World) (fd : Int) (n : Nat) (rd : ReadRes)
    (h : no_mod_since w v) : no_mod_since w (sys_read v fd n rd).2.2 := by
  cases rd <;> exact no_mod_step w v _ _ rfl rfl rfl rfl h

theorem no_mod_close (w v : World) (fd : Int) (h : no_mod_since w v) :
    no_mod_since w (sys_close v fd).2 :=
  no_mod_step w v _ _ (sys_close_trace v fd) rfl (by simp) (by simp) h

theorem no_mod_close_and_clear (w v : World) (fd : Int) (h : no_mod_since w v) :
    no_mod_since w (close_and_clear v fd) :=
  no_mod_step w v _ _ (close_and_clear_trace v fd) rfl (by simp) (by simp) h

theorem no_mod_ctl (w v : World) (e : Int) (op : EpollOp) (fd : Int) (ev : Nat)
    (hop : op ≠ EpollOp.MOD) (h : no_mod_since w v) :
    no_mod_since w (sys_epoll_ctl v e op fd ev).2 :=
  no_mod_step w v _ _ (sys_epoll_ctl_trace v e op fd ev)
    (by cases op <;> simp_all [Event.is_mod]) (by simp) (by simp) h

theorem no_mod_set_client (w v : World) (p : Int) (c : client_t) (h : no_mod_since w v) :
    no_mod_since w (set_client v p c) :=
  no_mod_of_eq w v _ rfl rfl rfl h

theorem no_mod_tuples (w v : World) (f : Int → Option Int) (h : no_mod_since w v) :
    no_mod_since w { v with client_fd_tuples := f } :=
  no_mod_of_eq w v _ rfl rfl rfl h

theorem no_mod_timer_tuples (w v : World) (f : Int → Int) (h : no_mod_since w v) :
    no_mod_since w { v with timer_fd_tuples := f } :=
  no_mod_of_eq w v _ rfl rfl rfl h

theorem no_mod_errno (w v : World) (e : Int) (h : no_mod_since w v) :
    no_mod_since w { v with errno := e } :=
  no_mod_of_eq w v _ rfl rfl rfl h

theorem no_mod_graceful_exit (w v : World) (fd : Int) (h : no_mod_since w v) :
    no_mod_since w (graceful_exit v fd) := by
  cases hp : v.client_fd_tuples fd with
  | none => rw [graceful_exit_null v fd hp]; exact h
  | some p =>
    rw [graceful_exit_eq v fd p hp]
    split_ifs
    · exact no_mod_close_and_clear _ _ _
        (no_mod_ctl _ _ _ _ _ _ (by simp) (no_mod_ctl _ _ _ _ _ _ (by simp) h))
    · exact no_mod_close_and_clear _ _ _ (no_mod_ctl _ _ _ _ _ _ (by simp)
        (no_mod_close_and_clear _ _ _ (no_mod_ctl _ _ _ _ _ _ (by simp)
          (no_mod_set_client _ _ _ _ h))))

theorem no_mod_register_client (w v : World) (sock : Int) (h : no_mod_since w v) :
    no_mod_since w (register_client v sock).2 := by
  unfold register_client
  dsimp only
  split_ifs <;>
    exact no_mod_ctl _ _ _ _ _ _ (by simp) (no_mod_of_eq w v _ rfl rfl rfl h)

theorem no_mod_validate_client (w v : World) (fd : Int) (rd : ReadRes) (wr : WriteRes) (r : Int)
    (v1 : World) (h : no_mod_since w v) (h1 : validate_client v fd rd wr = some (r, v1)) :
    no_mod_since w v1 := by
  have hr := no_mod_read w v fd (MAX_LENGTH - 1) rd h
  unfold validate_client read_client_message at h1
  dsimp only at h1
  split_ifs at h1
  · simp only [Option.some.injEq, Prod.mk.injEq] at h1
    obtain ⟨_, hw⟩ := h1
    subst hw
    exact hr
  · simp only at h1
    split at h1
    · simp at h1
    · split_ifs at h1 <;> simp only [Option.some.injEq, Prod.mk.injEq] at h1 <;>
        obtain ⟨_, hw⟩ := h1 <;> subst hw
      · exact no_mod_write _ _ _ _ _ (no_mod_set_client _ _ _ _ hr)
      · exact no_mod_set_client _ _ _ _ hr

theorem no_mod_posix_openpt (w v : World) (env : Env) (h : no_mod_since w v) :
    no_mod_since w (sys_posix_openpt v env).2 := by
  unfold sys_posix_openpt
  split_ifs <;> exact no_mod_step w v _ _ rfl rfl rfl rfl h

theorem no_mod_open_pty (w v : World) (fd : Int) (env : Env) (r : Int) (v1 : World)
    (h : no_mod_since w v) (h1 : open_pty v fd env = some (r, v1)) : no_mod_since w v1 := by
  have ho := no_mod_posix_openpt w v env h
  unfold open_pty at h1
  dsimp only at h1
  split_ifs at h1
  · simp only [Option.some.injEq, Prod.mk.injEq] at h1
    obtain ⟨_, hw⟩ := h1; subst hw
    exact ho
  · simp only [Option.some.injEq, Prod.mk.injEq] at h1
    obtain ⟨_, hw⟩ := h1; subst hw
    exact no_mod_errno _ _ _ (no_mod_close _ _ _ ho)
  · simp only [Option.some.injEq, Prod.mk.injEq] at h1
    obtain ⟨_, hw⟩ := h1; subst hw
    exact no_mod_ctl _ _ _ _ _ _ (by simp) ho
  · split at h1
    · simp at h1
    · simp only [Option.some.injEq, Prod.mk.injEq] at h1
      obtain ⟨_, hw⟩ := h1; subst hw
      apply no_mod_tuples
      apply no_mod_set_client
      apply no_mod_set_client
      apply no_mod_write
      refine no_mod_log _ _ Event.fork rfl ?_
      exact no_mod_ctl _ _ _ _ _ _ (by simp) ho

theorem no_mod_transfer_data (w v : World) (frm : Int) (rd : ReadRes) (wr : WriteRes) (g : Int)
    (v1 : World) (h : no_mod_since w v) (h1 : transfer_data v frm rd wr g = some v1) :
    no_mod_since w v1 := by
  unfold transfer_data at h1
  cases hp : v.client_fd_tuples frm with
  | none => simp [hp] at h1
  | some p =>
    simp only [hp] at h1
    generalize (if frm = (v.client_fd_tuples_mem p).pty_fd then (v.client_fd_tuples_mem p).socket_fd
      else (v.client_fd_tuples_mem p).pty_fd) = to_fd at h1
    by_cases hterm : (v.client_fd_tuples_mem p).state = cstate.terminated
    · simp only [hterm, if_true, Option.some.injEq] at h1
      subst h1
      exact h
    · simp only [hterm, if_false] at h1
      cases hcs : get_cstate v (v.client_fd_tuples_mem p).socket_fd with
      | none => simp [hcs] at h1
      | some st =>
        simp only [hcs] at h1
        by_cases hun : st = cstate.unwritten
        · simp only [hun, if_true] at h1
          split_ifs at h1 <;> simp only [Option.some.injEq] at h1 <;> subst h1 <;>
            exact no_mod_set_client _ _ _ _ (no_mod_write _ _ _ _ _ h)
        · simp only [hun, if_false] at h1
          have hr := no_mod_read w v frm MAX_LENGTH rd h
          have hg : ∀ x : World, no_mod_since w x → no_mod_since w (graceful_exit x frm) :=
            fun x hx => no_mod_graceful_exit w x frm hx
          have hw : ∀ (x : World) (fd : Int) (buf : List Byte),
              no_mod_since w x → no_mod_since w (sys_write x fd buf wr).2 :=
            fun x fd buf hx => no_mod_write w x fd buf wr hx
          split_ifs at h1 <;> simp only [Option.some.injEq] at h1 <;> subst h1 <;>
            repeat (first | exact hr | apply hw | apply hg | apply no_mod_set_client)

theorem no_mod_timerfd_create (w v : World) (env : Env) (h : no_mod_since w v) :
    no_mod_since w (sys_timerfd_create v env).2 := by
  unfold sys_timerfd_create
  split_ifs <;> exact no_mod_step w v _ _ rfl rfl rfl rfl h

theorem no_mod_timerfd_settime (w v : World) (fd : Int) (n : Nat) (h : no_mod_since w v) :
    no_mod_since w (sys_timerfd_settime v fd n).2 := by
  unfold sys_timerfd_settime
  split_ifs <;> exact no_mod_step w v _ _ rfl rfl rfl rfl h

theorem no_mod_accept (w v : World) (env : Env) (h : no_mod_since w v) :
    no_mod_since w (sys_accept v env).2 := by
  unfold sys_accept
  split_ifs <;> exact no_mod_step w v _ _ rfl rfl rfl rfl h

theorem no_mod_initiate_handshake (w v : World) (fd : Int) (env : Env) (r : Int) (v1 : World)
    (h : no_mod_since w v) (h1 : initiate_handshake v fd env = some (r, v1)) :
    no_mod_since w v1 := by
  have hw := no_mod_write w v fd CHALLENGE env.wr h
  have ht := no_mod_timerfd_settime w _
    (sys_timerfd_create (sys_write v fd CHALLENGE env.wr).2 env).1 3
    (no_mod_timerfd_create w _ env hw)
  unfold initiate_handshake at h1
  dsimp only at h1
  split_ifs at h1
  · simp only [Option.some.injEq, Prod.mk.injEq] at h1
    obtain ⟨_, hw1⟩ := h1
    subst hw1
    exact hw
  · split at h1
    · simp at h1
    · split_ifs at h1 <;> simp only [Option.some.injEq, Prod.mk.injEq] at h1 <;>
        obtain ⟨_, hw1⟩ := h1 <;> subst hw1 <;>
        exact no_mod_ctl _ _ _ _ _ _ (by simp)
          (no_mod_timer_tuples _ _ _ (no_mod_set_client _ _ _ _ ht))

theorem no_mod_client_connect (w v : World) (env : Env) (v1 : World)
    (h : no_mod_since w v) (h1 : client_connect v env = some v1) : no_mod_since w v1 := by
  have ha := no_mod_accept w v env h
  have hr := no_mod_register_client w _ (sys_accept v env).1 ha
  unfold client_connect at h1
  dsimp only at h1
  split_ifs at h1
  · simp only [Option.some.injEq] at h1; subst h1; exact ha
  · simp only [Option.some.injEq] at h1; subst h1; exact ha
  · split at h1
    · simp at h1
    · rename_i rv w2 hih
      have h2 := no_mod_initiate_handshake w _ _ _ _ _ (no_mod_close _ _ _ hr) hih
      split_ifs at h1 <;> simp only [Option.some.injEq] at h1 <;> subst h1
      · exact no_mod_close _ _ _ h2
      · exact h2
  · split at h1
    · simp at h1
    · rename_i rv w2 hih
      have h2 := no_mod_initiate_handshake w _ _ _ _ _ hr hih
      split_ifs at h1 <;> simp only [Option.some.injEq] at h1 <;> subst h1
      · exact no_mod_close _ _ _ h2
      · exact h2

/-- With the client's slot set, `initiate_handshake` returns. -/
theorem initiate_handshake_returns (w : World) (client_fd p : Int) (env : Env)
    (hp : w.client_fd_tuples client_fd = some p) :
    ∃ r w1, initiate_handshake w client_fd env = some (r, w1) := by
  have hcr : ∀ v : World, (sys_timerfd_create v env).2.client_fd_tuples = v.client_fd_tuples := by
    intro v
    unfold sys_timerfd_create
    split_ifs <;> simp [log]
  have hst : ∀ (v : World) (fd : Int) (n : Nat),
      (sys_timerfd_settime v fd n).2.client_fd_tuples = v.client_fd_tuples := by
    intro v fd n
    unfold sys_timerfd_settime
    split_ifs <;> simp [log]
  unfold initiate_handshake
  simp only [hst, hcr, sys_write_tuples, hp]
  split_ifs <;> exact ⟨_, _, rfl⟩

/-- `client_connect` always returns: the slot that `initiate_handshake` dereferences was
set by `register_client`. -/
theorem client_connect_returns (w : World) (env : Env) : ∃ v, client_connect w env = some v := by
  have hreg : ∀ (x : World) (sock : Int),
      (register_client x sock).2.client_fd_tuples sock = some sock := by
    intro x sock
    unfold register_client
    dsimp only
    split_ifs <;> simp [set_client, upd]
  unfold client_connect
  dsimp only
  split_ifs with h1 h2 h3
  · exact ⟨_, rfl⟩
  · exact ⟨_, rfl⟩
  · obtain ⟨r, w1, hi⟩ := initiate_handshake_returns
      (sys_close (register_client (sys_accept w env).2 (sys_accept w env).1).2
        (sys_accept w env).1).2 (sys_accept w env).1 (sys_accept w env).1 env
      (by simp [hreg])
    rw [hi]
    dsimp only
    split_ifs <;> exact ⟨_, rfl⟩
  · obtain ⟨r, w1, hi⟩ := initiate_handshake_returns
      (register_client (sys_accept w env).2 (sys_accept w env).1).2
      (sys_accept w env).1 (sys_accept w env).1 env (hreg _ _)
    rw [hi]
    dsimp only
    split_ifs <;> exact ⟨_, rfl⟩

theorem no_mod_filter (w v : World) (h : no_mod_since w v) :
    (v.trace.drop w.trace.length).filter Event.is_mod = [] := by
  obtain ⟨_, _, t, ht, hm⟩ := h
  rw [ht, List.drop_left, List.filter_eq_nil_iff]
  intro e he
  simp [hm e he]

theorem rearm_trace (w v : World) (h : no_mod_since w v) (fd : Int) (m : Nat) :
    ((sys_epoll_ctl v v.epoll_fd EpollOp.MOD fd m).2.trace.drop w.trace.length).filter
        Event.is_mod =
      [Event.epoll_ctl w.epoll_fd EpollOp.MOD fd m
        (sys_epoll_ctl v v.epoll_fd EpollOp.MOD fd m).1] := by
  have hf := no_mod_filter w v h
  obtain ⟨he, _, t, ht, _⟩ := h
  rw [ht, List.drop_left] at hf
  rw [sys_epoll_ctl_trace, ht, List.append_assoc, List.drop_left, List.filter_append, hf, he]
  rfl

theorem sys_epoll_ctl_mod_ok (v : World) (fd : Int) (m : Nat)
    (h : (sys_epoll_ctl v v.epoll_fd EpollOp.MOD fd m).1 = 0) :
    (sys_epoll_ctl v v.epoll_fd EpollOp.MOD fd m).2.epoll_set fd = some m := by
  unfold sys_epoll_ctl at h ⊢
  by_cases ho : v.open_fds fd = true
  · simp only [ho, ne_eq, not_true_eq_false, if_false, if_true] at h ⊢
    cases hs : v.epoll_set fd with
    | none => simp [epoll_apply, hs] at h
    | some m0 => simp [epoll_apply, hs, log, upd]
  · simp [ho] at h

/-- What `handle_io` does before it rearms adds no `EPOLL_CTL_MOD` call. -/
theorem no_mod_dispatch (w : World) (fd : Int) (env : Env) (v : World)
    (hd : (if fd = w.listen_fd then client_connect w env
      else
        match get_cstate w fd with
        | none => none
        | some st =>
          if st = cstate.new then
            match validate_client w fd env.rd env.wr with
            | none => none
            | some (rv, w1) =>
              if rv ≠ 0 then some (graceful_exit w1 fd)
              else
                match open_pty w1 fd env with
                | none => none
                | some (ro, w2) => if ro ≠ 0 then some (graceful_exit w2 fd) else some w2
          else if st = cstate.terminated then some w
          else transfer_data w fd env.rd env.wr env.nwrite0) = some v) :
    no_mod_since w v := by
  have h := no_mod_refl w
  split_ifs at hd with hl
  · exact no_mod_client_connect w w env v h hd
  · split at hd
    · simp at hd
    · rename_i st hcs
      split_ifs at hd with hnew hterm
      · split at hd
        · simp at hd
        · rename_i rv wv hval
          have hva := no_mod_validate_client w w fd env.rd env.wr rv wv h hval
          split_ifs at hd with hrv
          · simp only [Option.some.injEq] at hd; subst hd
            exact no_mod_graceful_exit _ _ _ hva
          · split at hd
            · simp at hd
            · rename_i ro w2 hop
              have h2 := no_mod_open_pty w wv fd env ro w2 hva hop
              split_ifs at hd <;> simp only [Option.some.injEq] at hd <;> subst hd
              · exact no_mod_graceful_exit _ _ _ h2
              · exact h2
      · simp only [Option.some.injEq] at hd; subst hd; exact h
      · exact no_mod_transfer_data w w fd env.rd env.wr env.nwrite0 v h hd

/-- With the client's slot set, `validate_client` returns and leaves the slot set. -/
theorem validate_client_returns (w : World) (fd p : Int) (rd : ReadRes) (wr : WriteRes)
    (hp : w.client_fd_tuples fd = some p) :
    ∃ rv w1, validate_client w fd rd wr = some (rv, w1) ∧ w1.client_fd_tuples fd = some p := by
  have hr : ∀ n, (sys_read w fd n rd).2.2.client_fd_tuples = w.client_fd_tuples := by
    intro n
    cases rd <;> rfl
  unfold validate_client read_client_message
  dsimp only
  split_ifs with h1
  · exact ⟨_, _, rfl, by simp [hr, hp]⟩
  · simp only [hr, hp]
    split_ifs
    · exact ⟨_, _, rfl, by simp [set_client, hr, hp]⟩
    · exact ⟨_, _, rfl, by simp [set_client, hr, hp]⟩

/-- With the client's slot set, `open_pty` returns. -/
theorem open_pty_returns (w : World) (fd p : Int) (env : Env)
    (hp : w.client_fd_tuples fd = some p) : ∃ ro w1, open_pty w fd env = some (ro, w1) := by
  unfold open_pty
  dsimp only
  split_ifs
  · exact ⟨_, _, rfl⟩
  · exact ⟨_, _, rfl⟩
  · exact ⟨_, _, rfl⟩
  · simp only [hp]
    exact ⟨_, _, rfl⟩

/-- With the slot of the descriptor and the slot of its record's socket set,
`transfer_data` returns. -/
theorem transfer_data_returns (w : World) (fd p q : Int) (rd : ReadRes) (wr : WriteRes)
    (g : Int) (hp : w.client_fd_tuples fd = some p)
    (hq : w.client_fd_tuples (w.client_fd_tuples_mem p).socket_fd = some q) :
    ∃ v, transfer_data w fd rd wr g = some v := by
  have hg : get_cstate w (w.client_fd_tuples_mem p).socket_fd =
      some (w.client_fd_tuples_mem q).state := by
    unfold get_cstate
    rw [hq]
  have hite : ∀ (c : Prop) [Decidable c] (a b : World),
      ∃ v, (if c then some a else some b) = some v := by
    intro c _ a b
    by_cases hc : c
    · exact ⟨a, if_pos hc⟩
    · exact ⟨b, if_neg hc⟩
  unfold transfer_data
  simp only [hp]
  by_cases hterm : (w.client_fd_tuples_mem p).state = cstate.terminated
  · rw [if_pos hterm]
    exact ⟨_, rfl⟩
  · rw [if_neg hterm, hg]
    by_cases hun : (w.client_fd_tuples_mem q).state = cstate.unwritten
    · simp only [hun, if_true]
      exact hite _ _ _
    · simp only [hun, if_false]
      exact hite _ _ _

/-- With the slot of the descriptor and the slot of its record's socket set,
`handle_io` returns. -/
theorem handle_io_returns (w : World) (fd p q : Int) (env : Env) (hfd : fd ≠ w.listen_fd)
    (hp : w.client_fd_tuples fd = some p)
    (hq : w.client_fd_tuples (w.client_fd_tuples_mem p).socket_fd = some q) :
    ∃ w1, handle_io w fd env = some w1 := by
  have hrearm : ∀ v : World, ∃ w1,
      (if fd ≠ v.listen_fd then
        match v.client_fd_tuples fd with
        | none => some v
        | some p =>
          if (v.client_fd_tuples_mem p).state = cstate.unwritten then
            some (sys_epoll_ctl v v.epoll_fd EpollOp.MOD fd
              (EPOLLOUT ||| EPOLLET ||| EPOLLONESHOT)).2
          else
            some (sys_epoll_ctl v v.epoll_fd EpollOp.MOD fd
              (EPOLLIN ||| EPOLLET ||| EPOLLONESHOT)).2
      else
        some (sys_epoll_ctl v v.epoll_fd EpollOp.MOD fd
          (EPOLLIN ||| EPOLLET ||| EPOLLONESHOT)).2) = some w1 := by
    intro v
    split_ifs
    · split
      · exact ⟨_, rfl⟩
      · split_ifs <;> exact ⟨_, rfl⟩
    · exact ⟨_, rfl⟩
  unfold handle_io
  simp only [hfd, if_false, get_cstate, hp]
  split_ifs with hnew hterm
  · obtain ⟨rv, wv, hv, hpv⟩ := validate_client_returns w fd p env.rd env.wr hp
    rw [hv]
    dsimp only
    split_ifs with hrv
    · exact hrearm _
    · obtain ⟨ro, wo, ho⟩ := open_pty_returns wv fd p env hpv
      rw [ho]
      dsimp only
      split_ifs
      · exact hrearm _
      · exact hrearm _
  · exact hrearm _
  · obtain ⟨v, hv⟩ := transfer_data_returns w fd p q env.rd env.wr env.nwrite0 hp hq
    rw [hv]
    exact hrearm _

/-- C16: the rearm rule of `handle_io`.  On the listening descriptor `handle_io` returns
and issues exactly one `EPOLL_CTL_MOD`, for that descriptor with
`EPOLLIN | EPOLLET | EPOLLONESHOT`.  On any other descriptor whose slot and whose record's
socket slot are set it returns; and whenever it returns, then if the slot of `fd` is empty
afterwards it issued no `EPOLL_CTL_MOD` at all, and if the slot is still set it issued
exactly one, for `fd`, with `EPOLLOUT | EPOLLET | EPOLLONESHOT` when the record is
`unwritten` and `EPOLLIN | EPOLLET | EPOLLONESHOT` otherwise.  Where that call succeeds the
main readiness set holds `fd` with that mask. -/
theorem handle_io_rearm (w : World) (fd : Int) (env : Env) :
    (fd = w.listen_fd →
      ∃ w1 r, handle_io w fd env = some w1 ∧
        (w1.trace.drop w.trace.length).filter Event.is_mod =
          [Event.epoll_ctl w.epoll_fd EpollOp.MOD fd (EPOLLIN ||| EPOLLET ||| EPOLLONESHOT) r] ∧
        (r = 0 → w1.epoll_set fd = some (EPOLLIN ||| EPOLLET ||| EPOLLONESHOT))) ∧
    (fd ≠ w.listen_fd →
      (∀ p q, w.client_fd_tuples fd = some p →
        w.client_fd_tuples (w.client_fd_tuples_mem p).socket_fd = some q →
        ∃ w1, handle_io w fd env = some w1) ∧
      ∀ w1, handle_io w fd env = some w1 →
      (w1.client_fd_tuples fd = none →
        (w1.trace.drop w.trace.length).filter Event.is_mod = []) ∧
      (∀ p, w1.client_fd_tuples fd = some p →
        ∃ r, (w1.trace.drop w.trace.length).filter Event.is_mod =
            [Event.epoll_ctl w.epoll_fd EpollOp.MOD fd
              (if (w1.client_fd_tuples_mem p).state = cstate.unwritten
                then EPOLLOUT ||| EPOLLET ||| EPOLLONESHOT
                else EPOLLIN ||| EPOLLET ||| EPOLLONESHOT) r] ∧
          (r = 0 → w1.epoll_set fd = some
            (if (w1.client_fd_tuples_mem p).state = cstate.unwritten
              then EPOLLOUT ||| EPOLLET ||| EPOLLONESHOT
              else EPOLLIN ||| EPOLLET ||| EPOLLONESHOT)))) := by
  constructor
  · intro hl
    obtain ⟨v, hv⟩ := client_connect_returns w env
    have hnm := no_mod_client_connect w w env v (no_mod_refl w) hv
    have hl2 : ¬ (fd ≠ v.listen_fd) := by rw [hnm.2.1]; simpa using hl
    refine ⟨(sys_epoll_ctl v v.epoll_fd EpollOp.MOD fd (EPOLLIN ||| EPOLLET ||| EPOLLONESHOT)).2,
      (sys_epoll_ctl v v.epoll_fd EpollOp.MOD fd (EPOLLIN ||| EPOLLET ||| EPOLLONESHOT)).1,
      ?_, rearm_trace w v hnm fd _, sys_epoll_ctl_mod_ok v fd _⟩
    unfold handle_io
    simp only [hl, if_true, hv]
    rw [← hl, if_neg hl2]
  · intro hl
    refine ⟨fun p q hp hq => handle_io_returns w fd p q env hl hp hq, ?_⟩
    intro w1 h1
    unfold handle_io at h1
    dsimp only at h1
    split at h1
    · simp at h1
    · rename_i v hd
      have hnm := no_mod_dispatch w fd env v hd
      have hl2 : fd ≠ v.listen_fd := by rw [hnm.2.1]; exact hl
      rw [if_pos hl2] at h1
      split at h1
      · rename_i hnone
        simp only [Option.some.injEq] at h1
        subst h1
        refine ⟨fun _ => no_mod_filter w v hnm, fun p hp => ?_⟩
        rw [hnone] at hp
        simp at hp
      · rename_i p hsome
        split_ifs at h1 with hst <;> simp only [Option.some.injEq] at h1 <;> subst h1
        · refine ⟨fun hn => ?_, fun q hq => ?_⟩
          · simp [hsome] at hn
          · have hq2 : q = p := by simpa [hsome] using hq.symm
            subst hq2
            simp only [sys_epoll_ctl_mem, hst, if_true]
            exact ⟨_, rearm_trace w v hnm fd _, sys_epoll_ctl_mod_ok v fd _⟩
        · refine ⟨fun hn => ?_, fun q hq => ?_⟩
          · simp [hsome] at hn
          · have hq2 : q = p := by simpa [hsome] using hq.symm
            subst hq2
            simp only [sys_epoll_ctl_mem, hst, if_false]
            exact ⟨_, rearm_trace w v hnm fd _, sys_epoll_ctl_mod_ok v fd _⟩

/-- Witness for C16: the socket of the sample session delivers six bytes and the PTY
accepts two; the slot stays set, the record is `unwritten`, and the one rearm call asks
for `EPOLLOUT`. -/
theorem handle_io_rearm_witness :
    ∃ w1 r,
      handle_io w_session 6
          { quiet with rd := ReadRes.data [65, 66, 67, 68, 69, 70], wr := WriteRes.count 2 } =
        some w1 ∧
      w1.client_fd_tuples 6 = some 6 ∧
      (w1.client_fd_tuples_mem 6).state = cstate.unwritten ∧
      (w1.trace.drop w_session.trace.length).filter Event.is_mod =
        [Event.epoll_ctl w_session.epoll_fd EpollOp.MOD 6
          (EPOLLOUT ||| EPOLLET ||| EPOLLONESHOT) r] := by
  obtain ⟨hret, heff⟩ := (handle_io_rearm w_session 6
    { quiet with rd := ReadRes.data [65, 66, 67, 68, 69, 70], wr := WriteRes.count 2 }).2
    (by decide)
  obtain ⟨w1, h1⟩ := hret 6 6 rfl rfl
  have hc : (handle_io w_session 6
      { quiet with rd := ReadRes.data [65, 66, 67, 68, 69, 70], wr := WriteRes.count 2 }).map
        (fun v => (v.client_fd_tuples 6, (v.client_fd_tuples_mem 6).state)) =
      some (some 6, cstate.unwritten) := rfl
  rw [h1] at hc
  simp only [Option.map_some', Option.some.injEq, Prod.mk.injEq] at hc
  obtain ⟨r, hr, _⟩ := (heff w1 h1).2 6 hc.1
  rw [if_pos hc.2] at hr
  exact ⟨w1, r, h1, hc.1, hc.2, hr⟩

/-! ## C17: delivery of the challenge -/

/-- C17 (as stated, fails): the socket accepts only 4 of the 10 bytes of the challenge.
`initiate_handshake` returns 0 after that one `write`; the calls that follow are
`timerfd_create`, `timerfd_settime` and `epoll_ctl`, and the client has received
`<rem` only. -/
theorem initiate_handshake_short_write_succeeds :
    (initiate_handshake w_registered 6 { accept_env with wr := WriteRes.count 4 }).map
        (fun r => (r.1, r.2.trace.drop w_registered.trace.length,
          bytes_accepted 6 (r.2.trace.drop w_registered.trace.length))) =
      some (0,
        [Event.write 6 CHALLENGE (WriteRes.count 4),
         Event.timerfd_create 7,
         Event.timerfd_settime 7 3,
         Event.epoll_ctl 4 EpollOp.ADD 7 (EPOLLONESHOT ||| EPOLLIN ||| EPOLLET) 0],
        [60, 114, 101, 109]) ∧
    [60, 114, 101, 109] ≠ CHALLENGE := by
  refine ⟨rfl, by decide⟩

/-- C17 (amended): for every accepted client (table slot set) and every result of
`write`, `initiate_handshake` returns after issuing exactly one `write`, of the 10 bytes
of the challenge, on the client socket; when it returns success that `write` did not
return -1 (it accepted some count `k`, possibly less than 10, and no further `write`
follows). -/
theorem initiate_handshake_single_write (w : World) (client_fd p : Int) (env : Env)
    (hp : w.client_fd_tuples client_fd = some p) :
    ∃ r w1, initiate_handshake w client_fd env = some (r, w1) ∧
      (w1.trace.drop w.trace.length).filter Event.is_write =
        [Event.write client_fd CHALLENGE env.wr] ∧
      (r = 0 → ∃ k, env.wr = WriteRes.count k) := by
  have hcr : ∀ v : World, (sys_timerfd_create v env).2.client_fd_tuples = v.client_fd_tuples ∧
      ∃ r, (sys_timerfd_create v env).2.trace = v.trace ++ [Event.timerfd_create r] := by
    intro v
    unfold sys_timerfd_create
    split_ifs <;> simp [log]
  have hst : ∀ (v : World) (fd : Int) (n : Nat),
      (sys_timerfd_settime v fd n).2.client_fd_tuples = v.client_fd_tuples ∧
      (sys_timerfd_settime v fd n).2.trace = v.trace ++ [Event.timerfd_settime fd n] := by
    intro v fd n
    unfold sys_timerfd_settime
    split_ifs <;> simp [log]
  cases hwr : env.wr with
  | err e =>
    have h1 : (sys_write w client_fd CHALLENGE (WriteRes.err e)).1 = -1 := rfl
    unfold initiate_handshake
    simp only [hwr, h1, if_true]
    refine ⟨_, _, rfl, ?_, ?_⟩
    · simp [Event.is_write]
    · intro h; simp at h
  | count k =>
    have hk : ¬ ((k : Int) = -1) := by omega
    obtain ⟨hc1, rc, hc2⟩ := hcr (sys_write w client_fd CHALLENGE (WriteRes.count k)).2
    have hs := hst (sys_timerfd_create (sys_write w client_fd CHALLENGE (WriteRes.count k)).2 env).2
      (sys_timerfd_create (sys_write w client_fd CHALLENGE (WriteRes.count k)).2 env).1 3
    have h1 : (sys_write w client_fd CHALLENGE (WriteRes.count k)).1 = (k : Int) := rfl
    unfold initiate_handshake
    simp only [hwr, h1, hk, if_false, hs.1, hc1, sys_write_tuples, hp]
    split_ifs
    · refine ⟨_, _, rfl, ?_, fun _ => ⟨k, rfl⟩⟩
      simp [hs.2, hc2, Event.is_write, set_client]
    · refine ⟨_, _, rfl, ?_, fun _ => ⟨k, rfl⟩⟩
      simp [hs.2, hc2, Event.is_write, set_client]

/-- Witness for C17 (amended): the challenge of client 6 in the sample run, with a
socket that accepts only 4 bytes. -/
theorem initiate_handshake_single_write_witness :
    ∃ r w1, initiate_handshake w_registered 6 { accept_env with wr := WriteRes.count 4 } =
        some (r, w1) ∧
      (w1.trace.drop w_registered.trace.length).filter Event.is_write =
        [Event.write 6 CHALLENGE (WriteRes.count 4)] ∧
      (r = 0 → ∃ k, WriteRes.count 4 = WriteRes.count k) :=
  initiate_handshake_single_write w_registered 6 6 { accept_env with wr := WriteRes.count 4 } rfl

/-! ## C18: late events -/

/-- On a descriptor other than the listening one whose table slot is empty, `handle_io`
starts with `get_cstate(fd)`, which dereferences the empty slot. -/
theorem handle_io_null_slot (w : World) (fd : Int) (env : Env) (hfd : fd ≠ w.listen_fd)
    (hp : w.client_fd_tuples fd = none) : handle_io w fd env = none := by
  simp [handle_io, hfd, get_cstate, hp]

/-- C18 (fails on the code): both descriptors of the sample session are reported
readable in one pass and queued.  The worker serving the socket finds `read` returning
0 and `graceful_exit` clears both slots; the event for the PTY master, descriptor 8,
is still queued, and `handle_io(8)` then evaluates `get_cstate(8)` on the cleared slot:
a NULL dereference (`none`), before the NULL test further down is reached. -/
theorem handle_io_late_event_dereferences_null :
    both_ready.2 = [6, 8] ∧
    (worker_step both_ready eof_env).map
        (fun s => (s.1.client_fd_tuples 6, s.1.client_fd_tuples 8, s.2)) =
      some (none, none, [8]) ∧
    ((worker_step both_ready eof_env).bind fun s => worker_step s quiet).isNone = true ∧
    (handle_io w_closed 8 quiet).isNone = true := by
  refine ⟨rfl, rfl, rfl, rfl⟩

/-! ## C19: the timer set is armed once -/

/-- C19 (fails on the code): from start-up a client is accepted and stays silent; its
timer expires, the timer set is reported and the client is terminated.  That report
disarms the one-shot registration of `t_epoll_fd` (descriptor 4) and nothing arms it
again.  A second client is accepted and stays silent; when its timer expires the timer
set is ready but is not reported, so the pass does nothing: the client stays `new`,
its socket open, its slot set. -/
theorem second_expiry_not_delivered :
    first_expiry.map (fun s => (client6_report s, s.1.epoll_set 4)) =
      some ((none, false, cstate.new, []), some (EPOLLONESHOT ||| EPOLLET)) ∧
    armed (EPOLLONESHOT ||| EPOLLET) = false ∧
    second_accept.map (fun s => (client6_report s, s.1.t_epoll_set 7, s.1.open_fds 7)) =
      some ((some 6, true, cstate.new, []), some (EPOLLONESHOT ||| EPOLLIN ||| EPOLLET), true) ∧
    second_expiry.map (fun s => (client6_report s, s.1.epoll_set 4)) =
      some ((some 6, true, cstate.new, []), some (EPOLLONESHOT ||| EPOLLET)) := by
  refine ⟨rfl, by decide, rfl, rfl⟩

/-! ## C20: which client a timer expiry terminates -/

/-- C20 (fails on the code): the first client (socket 6, timer 7) validated and then
closed; its timer was never closed or unregistered.  A second client is accepted on the
reused descriptor 6 with timer 8 and is `new`.  When timer 7 expires, `timer_fd_tuples[7]`
still names descriptor 6, whose record is `new`, so the timer branch terminates the
second client although its `timer_fd` is 8. -/
theorem stale_timer_terminates_next_client :
    handle_io w_session 6 eof_env = some w_closed ∧
    handle_io w_closed 5 accept_env2 = some w_second ∧
    client6_report (w_second, []) = (some 6, true, cstate.new, []) ∧
    (w_second.client_fd_tuples_mem 6).timer_fd = 8 ∧
    w_second.timer_fd_tuples 8 = 6 ∧
    w_second.timer_fd_tuples 7 = 6 ∧
    client6_report (expiry_pass (w_second, []) [7]) = (none, false, cstate.new, []) ∧
    (expiry_pass (w_second, []) [7]).1.trace.drop w_second.trace.length =
      [Event.epoll_ctl 4 EpollOp.DEL 7 0 0, Event.close 7 0,
       Event.epoll_ctl 3 EpollOp.DEL 6 0 0, Event.epoll_ctl 4 EpollOp.DEL 8 0 0,
       Event.close 6 0] := by
  refine ⟨rfl, rfl, rfl, rfl, rfl, rfl, rfl, rfl⟩

/-! ## C21: direction of the carry-over -/

/-- In state `unwritten` `transfer_data` issues one `write`, of the carry-over, and its
destination is computed from the descriptor of the event alone: the socket when the
event is on the PTY master, the PTY master otherwise. -/
theorem transfer_data_drain_destination (w : World) (frm p : Int) (rd : ReadRes) (wr : WriteRes)
    (g : Int) (hp : w.client_fd_tuples frm = some p)
    (halias : w.client_fd_tuples (w.client_fd_tuples_mem p).socket_fd = some p)
    (hst : (w.client_fd_tuples_mem p).state = cstate.unwritten) :
    ∃ w1, transfer_data w frm rd wr g = some w1 ∧
      w1.trace = w.trace ++
        [Event.write
          (if frm = (w.client_fd_tuples_mem p).pty_fd then (w.client_fd_tuples_mem p).socket_fd
            else (w.client_fd_tuples_mem p).pty_fd)
          ((w.client_fd_tuples_mem p).unwritten.take (w.client_fd_tuples_mem p).nunwritten)
          wr] := by
  unfold transfer_data
  simp only [hp, halias, get_cstate, hst, reduceCtorEq, if_false, if_true]
  generalize (if frm = (w.client_fd_tuples_mem p).pty_fd then (w.client_fd_tuples_mem p).socket_fd
    else (w.client_fd_tuples_mem p).pty_fd) = to_fd
  split_ifs
  · exact ⟨_, rfl, by simp [set_client]⟩
  · exact ⟨_, rfl, by simp [set_client]⟩

/-- C21 (fails on the code): the socket of the sample session (descriptor 6) delivers
`ABCDEF` and the PTY master (descriptor 8) accepts `AB`; the record is `unwritten` with
`CDEF` pending for the PTY, descriptor 6 is rearmed for `EPOLLOUT`, and descriptor 8 is
still registered and armed for `EPOLLIN`.  An event on descriptor 6 would send `CDEF` to
the PTY.  But the next event is on descriptor 8 (the shell has output): it is
queued, `handle_io(8)` runs `transfer_data(8)`, which computes the destination from the
descriptor of the event and writes `CDEF` to the socket, the side the bytes were read
from; the record is `established` with nothing pending, so the PTY never gets them. -/
theorem carry_over_written_back_to_source :
    handle_io w_session 6 carry_env = some w_pending ∧
    w_pending.trace.drop w_session.trace.length =
      [Event.read 6 4096 (ReadRes.data [65, 66, 67, 68, 69, 70]),
       Event.write 8 [65, 66, 67, 68, 69, 70] (WriteRes.count 2),
       Event.epoll_ctl 3 EpollOp.MOD 6 (EPOLLOUT ||| EPOLLET ||| EPOLLONESHOT) 0] ∧
    ((w_pending.client_fd_tuples_mem 6).socket_fd, (w_pending.client_fd_tuples_mem 6).pty_fd,
        (w_pending.client_fd_tuples_mem 6).state,
        (w_pending.client_fd_tuples_mem 6).unwritten.take
          (w_pending.client_fd_tuples_mem 6).nunwritten) =
      (6, 8, cstate.unwritten, [67, 68, 69, 70]) ∧
    w_pending.epoll_set 8 = some (EPOLLIN ||| EPOLLET ||| EPOLLONESHOT) ∧
    (handle_io w_pending 6 { quiet with wr := WriteRes.count 4 }).map
        (fun w => w.trace.drop w_pending.trace.length) =
      some [Event.write 8 [67, 68, 69, 70] (WriteRes.count 4),
            Event.epoll_ctl 3 EpollOp.MOD 6 (EPOLLIN ||| EPOLLET ||| EPOLLONESHOT) 0] ∧
    (epoll_listener_pass (w_pending, []) [(8, EPOLLIN)] []).2 = [8] ∧
    pty_event.map (fun s => (s.1.trace.drop w_pending.trace.length,
        (s.1.client_fd_tuples_mem 6).state, (s.1.client_fd_tuples_mem 6).nunwritten)) =
      some ([Event.write 6 [67, 68, 69, 70] (WriteRes.count 4),
             Event.epoll_ctl 3 EpollOp.MOD 8 (EPOLLIN ||| EPOLLET ||| EPOLLONESHOT) 0],
            cstate.established, 0) := by
  refine ⟨rfl, rfl, rfl, rfl, rfl, rfl, rfl⟩

end Lab5

namespace Lab3

open Lab5 (Byte ReadRes WriteRes strcmp)

/-! ## C22: failure of the challenge write -/

theorem lor_ne_neg_one (a b : Int) : lor a b ≠ -1 := by
  unfold lor
  split_ifs <;> decide

/-- When the alarm flag is unset at the first two tests, `handshake` reads the client's
reply right after the `write` of the challenge, whatever that `write` returned. -/
theorem handshake_reads_after_challenge (t : List Event) (client_fd : Int) (env : Env)
    (ha1 : env.alarm1 = 0) (ha2 : env.alarm2 = 0) :
    ∃ rest, (handshake t client_fd env).2 =
      t ++ [Event.sigaction, Event.timer_create, Event.timer_settime 3,
        Event.write client_fd CHALLENGE env.wr1,
        Event.read client_fd (MAX_LENGTH - 1) env.rd] ++ rest := by
  have hw : ∀ u : List Event, (sys_write u client_fd CHALLENGE env.wr1).2 =
      u ++ [Event.write client_fd CHALLENGE env.wr1] := by
    intro u
    unfold sys_write
    cases env.wr1 <;> rfl
  have hr : ∀ u : List Event, (sys_read u client_fd (MAX_LENGTH - 1) env.rd).2.2 =
      u ++ [Event.read client_fd (MAX_LENGTH - 1) env.rd] := by
    intro u
    unfold sys_read
    cases env.rd <;> rfl
  have hv : ∀ (u : List Event) (buf : List Byte),
      (sys_write u client_fd buf env.wr2).2 = u ++ [Event.write client_fd buf env.wr2] := by
    intro u buf
    unfold sys_write
    cases env.wr2 <;> rfl
  unfold handshake read_client_message
  simp only [ha1, ha2, ne_eq, not_true_eq_false, if_false, lor_ne_neg_one, hw, hr, hv]
  split_ifs
  · exact ⟨[], by simp⟩
  · simp only [List.append_assoc, List.cons_append, List.nil_append]
    split_ifs
    · exact ⟨[Event.write client_fd ERROR env.wr2], rfl⟩
    · exact ⟨[Event.write client_fd PROCEED env.wr2, Event.signal_ign, Event.timer_delete], rfl⟩

/-- The value `handshake` returns does not depend on what the `write` of the challenge
returned. -/
theorem handshake_challenge_result_unused (t : List Event) (client_fd : Int) (env : Env)
    (a b : WriteRes) :
    (handshake t client_fd { env with wr1 := a }).1 =
      (handshake t client_fd { env with wr1 := b }).1 := by
  have hr : ∀ u v : List Event, (sys_read u client_fd (MAX_LENGTH - 1) env.rd).1 =
        (sys_read v client_fd (MAX_LENGTH - 1) env.rd).1 ∧
      (sys_read u client_fd (MAX_LENGTH - 1) env.rd).2.1 =
        (sys_read v client_fd (MAX_LENGTH - 1) env.rd).2.1 := by
    intro u v
    unfold sys_read
    cases env.rd <;> exact ⟨rfl, rfl⟩
  unfold handshake read_client_message
  by_cases h1 : env.alarm1 = 0
  · by_cases h2 : env.alarm2 = 0
    · simp only [h1, h2, ne_eq, not_true_eq_false, if_false, lor_ne_neg_one]
      rw [(hr (sys_write (t ++ [Event.sigaction, Event.timer_create, Event.timer_settime 3])
          client_fd CHALLENGE a).2
        (sys_write (t ++ [Event.sigaction, Event.timer_create, Event.timer_settime 3])
          client_fd CHALLENGE b).2).1,
        (hr (sys_write (t ++ [Event.sigaction, Event.timer_create, Event.timer_settime 3])
          client_fd CHALLENGE a).2
        (sys_write (t ++ [Event.sigaction, Event.timer_create, Event.timer_settime 3])
          client_fd CHALLENGE b).2).2]
      split_ifs
      · rfl
      · simp only
        split_ifs <;> rfl
    · simp only [h1, h2, ne_eq, not_true_eq_false, not_false_eq_true, if_false, if_true,
        lor_ne_neg_one]
  · simp only [h1, ne_eq, not_false_eq_true, if_true, lor_ne_neg_one, if_false]

/-- C22 (fails on the code): the alarm never fires, the `write` of the challenge returns
-1 (`EPIPE`), and the client's socket then delivers the secret.  `handshake` does not
return at the failed `write`: it reads the reply, writes `<ok>\n` and returns 0. -/
theorem handshake_ignores_failed_challenge_write :
    (sys_write [] 6 CHALLENGE (WriteRes.err Lab5.EPIPE)).1 = -1 ∧
    handshake [] 6 (reply_env (WriteRes.err Lab5.EPIPE) SECRET) =
      (0, [Event.sigaction, Event.timer_create, Event.timer_settime 3,
           Event.write 6 CHALLENGE (WriteRes.err Lab5.EPIPE),
           Event.read 6 4095 (ReadRes.data SECRET),
           Event.write 6 PROCEED (WriteRes.count 5),
           Event.signal_ign, Event.timer_delete]) ∧
    handshake [] 6 (reply_env (WriteRes.err Lab5.EPIPE) [120, 10]) =
      (-1, [Event.sigaction, Event.timer_create, Event.timer_settime 3,
            Event.write 6 CHALLENGE (WriteRes.err Lab5.EPIPE),
            Event.read 6 4095 (ReadRes.data [120, 10]),
            Event.write 6 ERROR (WriteRes.count 5)]) := by
  refine ⟨rfl, rfl, rfl⟩

end Lab3
